import Mathlib

/-!
Shallow embedding of the CHIP-8 interpreter from src/src/chip_8.rs.

Modelling conventions:
* Machine bytes and words are Nat with explicit wraparound (% 256, % 65536)
  exactly where the Rust code wraps (wrapping_add, wrapping_sub, as-casts,
  release-mode shift truncation).
* Rust array indexing that can panic is modelled in the Option monad:
  none means the Rust program panics (out-of-bounds index, and the
  stack-pointer decrement at 0, which panics in debug mode and
  index-panics after wrapping in release mode).
* The rand::random::<u8>() call of Cxkk is modelled by an explicit oracle
  argument: cycle receives the random byte for this cycle, frame receives
  one byte per cycle.
-/

/-- Write to a fixed-size array: a Rust indexed store, which panics (none)
when the index is out of bounds. -/
def writeArr {α : Type} (l : List α) (i : Nat) (v : α) : Option (List α) :=
  if i < l.length then some (l.set i v) else none

/-- The CHIP-8 machine state, field for field the Rust struct Chip8. -/
structure Chip8 where
  memory : List Nat
  v_registers : List Nat
  i_register : Nat
  pc : Nat
  screen : List Nat
  stack : List Nat
  stack_pointer : Nat
  sound_timer : Nat
  delay_timer : Nat
  waiting_for_key : Option Nat
  alternative_shift_mode : Bool
  cycles_per_frame : Nat
deriving DecidableEq

/-- u8 wrapping subtraction on byte values. -/
def wsub8 (a b : Nat) : Nat := (a + (256 - b % 256)) % 256

/-- The 80-byte font table FONT_DATA. -/
def FONT_DATA : List Nat :=
  [0xF0, 0x90, 0x90, 0x90, 0xF0, 0x20, 0x60, 0x20, 0x20, 0x70, 0xF0, 0x10,
   0xF0, 0x80, 0xF0, 0xF0, 0x10, 0xF0, 0x10, 0xF0, 0x90, 0x90, 0xF0, 0x10, 0x10, 0xF0, 0x80, 0xF0,
   0x10, 0xF0, 0xF0, 0x80, 0xF0, 0x90, 0xF0, 0xF0, 0x10, 0x20, 0x40, 0x40, 0xF0, 0x90, 0xF0, 0x90,
   0xF0, 0xF0, 0x90, 0xF0, 0x10, 0xF0, 0xF0, 0x90, 0xF0, 0x90, 0x90, 0xE0, 0x90, 0xE0, 0x90, 0xE0,
   0xF0, 0x80, 0x80, 0x80, 0xF0, 0xE0, 0x90, 0x90, 0x90, 0xE0, 0xF0, 0x80, 0xF0, 0x80, 0xF0, 0xF0,
   0x80, 0xF0, 0x80, 0x80]

/-- One pixel of the Dxyn draw loop body: pixel ix of the sprite row with
value row, drawn on screen row iy of the sprite. Registers are re-read at
every step exactly as the Rust code re-indexes self.v_registers. -/
def drawPixel (x y iy row ix : Nat) (s : Chip8) : Option Chip8 := do
  let vx ← s.v_registers[x]?
  let vy ← s.v_registers[y]?
  let dx := (vx + ix) % 64
  let dy := (vy + iy) % 32
  let index := dy * 64 + dx
  let prev_pixel ← s.screen[index]?
  let pixel := ((row >>> (7 - ix)) &&& 1) * 255
  let s1 ←
    if prev_pixel = 255 ∧ pixel = 255 then do
      let vr ← writeArr s.v_registers 15 1
      pure { s with v_registers := vr }
    else
      pure s
  let sc ← writeArr s1.screen index (prev_pixel ^^^ pixel)
  pure { s1 with screen := sc }

/-- The inner for ix in 0..8 loop of Dxyn, unrolled as: first m pixels of
the row, in increasing ix order. drawPixels x y iy row 8 s is one full row. -/
def drawPixels (x y iy row : Nat) : Nat → Chip8 → Option Chip8
  | 0, s => some s
  | m + 1, s => do
      let s1 ← drawPixels x y iy row m s
      drawPixel x y iy row m s1

/-- The outer for iy in 0..low_nibble loop of Dxyn: first m sprite rows in
increasing iy order, each row byte fetched at i_register + iy. -/
def drawRows (x y : Nat) : Nat → Chip8 → Option Chip8
  | 0, s => some s
  | m + 1, s => do
      let s1 ← drawRows x y m s
      let row ← s1.memory[s1.i_register + m]?
      drawPixels x y m row 8 s1

/-- The whole Dxyn arm: VF := 0 then draw n sprite rows. -/
def drawSprite (x y n : Nat) (s : Chip8) : Option Chip8 := do
  let vr ← writeArr s.v_registers 15 0
  drawRows x y n { s with v_registers := vr }

/-- Fx55, for i in 0..=x: memory[I + i] := V[i]; first m indices. -/
def storeRegsAux (_x : Nat) : Nat → Chip8 → Option Chip8
  | 0, s => some s
  | m + 1, s => do
      let s1 ← storeRegsAux _x m s
      let v ← s1.v_registers[m]?
      let mem ← writeArr s1.memory (s1.i_register + m) v
      pure { s1 with memory := mem }

/-- Fx55: store registers V0 through Vx in memory starting at location I. -/
def storeRegs (x : Nat) (s : Chip8) : Option Chip8 :=
  storeRegsAux x (x + 1) s

/-- Fx65, for i in 0..=x: V[i] := memory[I + i]; first m indices. -/
def loadRegsAux (_x : Nat) : Nat → Chip8 → Option Chip8
  | 0, s => some s
  | m + 1, s => do
      let s1 ← loadRegsAux _x m s
      let v ← s1.memory[s1.i_register + m]?
      let vr ← writeArr s1.v_registers m v
      pure { s1 with v_registers := vr }

/-- Fx65: read registers V0 through Vx from memory starting at location I. -/
def loadRegs (x : Nat) (s : Chip8) : Option Chip8 :=
  loadRegsAux x (x + 1) s

/-! Each arm of the Rust match in Chip8::cycle, as its own function; the
bodies are the arm bodies, verbatim. Each returns the updated state and
the pc increment. -/

/-- 00E0: clear screen. -/
def op00E0 (s : Chip8) : Option (Chip8 × Nat) :=
  some ({ s with screen := s.screen.map (fun _ => 0) }, 2)

/-- 00EE: return from subroutine. -/
def op00EE (s : Chip8) : Option (Chip8 × Nat) := do
  let ret ← if s.stack_pointer = 0 then none else s.stack[s.stack_pointer - 1]?
  some ({ s with stack_pointer := s.stack_pointer - 1, pc := ret }, 2)

/-- 1nnn: jump to address nnn. -/
def op1nnn (s : Chip8) (instruction : Nat) : Option (Chip8 × Nat) :=
  some ({ s with pc := instruction &&& 0xfff }, 0)

/-- 2nnn: call subroutine at nnn. -/
def op2nnn (s : Chip8) (instruction : Nat) : Option (Chip8 × Nat) := do
  let st ← writeArr s.stack s.stack_pointer (s.pc % 65536)
  some ({ s with stack := st, stack_pointer := s.stack_pointer + 1,
                 pc := instruction &&& 0xfff }, 0)

/-- 3xkk: skip next instruction if Vx == kk. -/
def op3xkk (s : Chip8) (x instr_low : Nat) : Option (Chip8 × Nat) := do
  let vx ← s.v_registers[x]?
  some (if vx = instr_low then { s with pc := s.pc + 2 } else s, 2)

/-- 4xkk: skip next instruction if Vx != kk. -/
def op4xkk (s : Chip8) (x instr_low : Nat) : Option (Chip8 × Nat) := do
  let vx ← s.v_registers[x]?
  some (if vx ≠ instr_low then { s with pc := s.pc + 2 } else s, 2)

/-- 5xy0: skip next instruction if Vx == Vy. -/
def op5xy0 (s : Chip8) (x y : Nat) : Option (Chip8 × Nat) := do
  let vx ← s.v_registers[x]?
  let vy ← s.v_registers[y]?
  some (if vx = vy then { s with pc := s.pc + 2 } else s, 2)

/-- 6xkk: set Vx = kk. -/
def op6xkk (s : Chip8) (x instr_low : Nat) : Option (Chip8 × Nat) := do
  let vr ← writeArr s.v_registers x instr_low
  some ({ s with v_registers := vr }, 2)

/-- 7xkk: set Vx = Vx + kk (wrapping). -/
def op7xkk (s : Chip8) (x instr_low : Nat) : Option (Chip8 × Nat) := do
  let vx ← s.v_registers[x]?
  let vr ← writeArr s.v_registers x ((vx + instr_low) % 256)
  some ({ s with v_registers := vr }, 2)

/-- 8xy0: set Vx = Vy. -/
def op8xy0 (s : Chip8) (x y : Nat) : Option (Chip8 × Nat) := do
  let vy ← s.v_registers[y]?
  let vr ← writeArr s.v_registers x vy
  some ({ s with v_registers := vr }, 2)

/-- 8xy1: set Vx = Vx | Vy. -/
def op8xy1 (s : Chip8) (x y : Nat) : Option (Chip8 × Nat) := do
  let vx ← s.v_registers[x]?
  let vy ← s.v_registers[y]?
  let vr ← writeArr s.v_registers x (vx ||| vy)
  some ({ s with v_registers := vr }, 2)

/-- 8xy2: set Vx = Vx & Vy. -/
def op8xy2 (s : Chip8) (x y : Nat) : Option (Chip8 × Nat) := do
  let vx ← s.v_registers[x]?
  let vy ← s.v_registers[y]?
  let vr ← writeArr s.v_registers x (vx &&& vy)
  some ({ s with v_registers := vr }, 2)

/-- 8xy3: set Vx = Vx ^ Vy. -/
def op8xy3 (s : Chip8) (x y : Nat) : Option (Chip8 × Nat) := do
  let vx ← s.v_registers[x]?
  let vy ← s.v_registers[y]?
  let vr ← writeArr s.v_registers x (vx ^^^ vy)
  some ({ s with v_registers := vr }, 2)

/-- 8xy4: set Vx = Vx + Vy, VF = carry (16-bit sum precomputed). -/
def op8xy4 (s : Chip8) (x y : Nat) : Option (Chip8 × Nat) := do
  let vx ← s.v_registers[x]?
  let vy ← s.v_registers[y]?
  let result := vx + vy
  let vr1 ← writeArr s.v_registers 15 ((result >>> 8) &&& 1)
  let vr2 ← writeArr vr1 x (result % 256)
  some ({ s with v_registers := vr2 }, 2)

/-- 8xy5: VF := if Vx > Vy then 0 else 1, then Vx := Vx - Vy with the
subtraction operands re-read after the flag write. -/
def op8xy5 (s : Chip8) (x y : Nat) : Option (Chip8 × Nat) := do
  let vx0 ← s.v_registers[x]?
  let vy0 ← s.v_registers[y]?
  let vr1 ← writeArr s.v_registers 15 (if vx0 > vy0 then 0 else 1)
  let vx1 ← vr1[x]?
  let vy1 ← vr1[y]?
  let vr2 ← writeArr vr1 x (wsub8 vx1 vy1)
  some ({ s with v_registers := vr2 }, 2)

/-- 8xy6: VF := operand & 1, Vx := operand >> 1, operand re-read. -/
def op8xy6 (s : Chip8) (x y : Nat) : Option (Chip8 × Nat) := do
  let other := if s.alternative_shift_mode then x else y
  let vo0 ← s.v_registers[other]?
  let vr1 ← writeArr s.v_registers 15 (vo0 &&& 1)
  let vo1 ← vr1[other]?
  let vr2 ← writeArr vr1 x (vo1 >>> 1)
  some ({ s with v_registers := vr2 }, 2)

/-- 8xy7: VF := u8::from(Vy > Vx), then Vx := Vy - Vx, operands re-read. -/
def op8xy7 (s : Chip8) (x y : Nat) : Option (Chip8 × Nat) := do
  let vx0 ← s.v_registers[x]?
  let vy0 ← s.v_registers[y]?
  let vr1 ← writeArr s.v_registers 15 (if vy0 > vx0 then 1 else 0)
  let vx1 ← vr1[x]?
  let vy1 ← vr1[y]?
  let vr2 ← writeArr vr1 x (wsub8 vy1 vx1)
  some ({ s with v_registers := vr2 }, 2)

/-- 8xyE: VF := operand & 0x80 (raw), Vx := operand << 1 (truncated). -/
def op8xyE (s : Chip8) (x y : Nat) : Option (Chip8 × Nat) := do
  let other := if s.alternative_shift_mode then x else y
  let vo0 ← s.v_registers[other]?
  let vr1 ← writeArr s.v_registers 15 (vo0 &&& 0x80)
  let vo1 ← vr1[other]?
  let vr2 ← writeArr vr1 x ((vo1 <<< 1) % 256)
  some ({ s with v_registers := vr2 }, 2)

/-- 9xy0: skip next instruction if Vx != Vy. -/
def op9xy0 (s : Chip8) (x y : Nat) : Option (Chip8 × Nat) := do
  let vx ← s.v_registers[x]?
  let vy ← s.v_registers[y]?
  some (if vx ≠ vy then { s with pc := s.pc + 2 } else s, 2)

/-- Annn: set I = nnn. -/
def opAnnn (s : Chip8) (instruction : Nat) : Option (Chip8 × Nat) :=
  some ({ s with i_register := instruction &&& 0xfff }, 2)

/-- Bnnn: jump to V0 + nnn. -/
def opBnnn (s : Chip8) (instruction : Nat) : Option (Chip8 × Nat) := do
  let v0 ← s.v_registers[0]?
  some ({ s with pc := (instruction &&& 0xfff) + v0 }, 0)

/-- Cxkk: set Vx = random & kk; rnd is the byte drawn this cycle. -/
def opCxkk (rnd : Nat) (s : Chip8) (x instr_low : Nat) : Option (Chip8 × Nat) := do
  let vr ← writeArr s.v_registers x ((rnd % 256) &&& instr_low)
  some ({ s with v_registers := vr }, 2)

/-- Dxyn: draw sprite. -/
def opDxyn (s : Chip8) (x y low_nibble : Nat) : Option (Chip8 × Nat) := do
  let s1 ← drawSprite x y low_nibble s
  some (s1, 2)

/-- Ex9E: skip next instruction if key Vx is pressed. -/
def opEx9E (k : List Bool) (s : Chip8) (x : Nat) : Option (Chip8 × Nat) := do
  let vx ← s.v_registers[x]?
  let pressed ← k[vx]?
  some (if pressed then { s with pc := s.pc + 2 } else s, 2)

/-- ExA1: skip next instruction if key Vx is not pressed. -/
def opExA1 (k : List Bool) (s : Chip8) (x : Nat) : Option (Chip8 × Nat) := do
  let vx ← s.v_registers[x]?
  let pressed ← k[vx]?
  some (if ¬ pressed then { s with pc := s.pc + 2 } else s, 2)

/-- Fx07: set Vx = delay timer. -/
def opFx07 (s : Chip8) (x : Nat) : Option (Chip8 × Nat) := do
  let vr ← writeArr s.v_registers x s.delay_timer
  some ({ s with v_registers := vr }, 2)

/-- Fx0A: wait for key press, store pressed key in Vx. -/
def opFx0A (s : Chip8) (x : Nat) : Option (Chip8 × Nat) :=
  some ({ s with waiting_for_key := some (x % 256) }, 2)

/-- Fx15: set delay timer = Vx. -/
def opFx15 (s : Chip8) (x : Nat) : Option (Chip8 × Nat) := do
  let vx ← s.v_registers[x]?
  some ({ s with delay_timer := vx }, 2)

/-- Fx18: set sound timer = Vx. -/
def opFx18 (s : Chip8) (x : Nat) : Option (Chip8 × Nat) := do
  let vx ← s.v_registers[x]?
  some ({ s with sound_timer := vx }, 2)

/-- Fx1E: set I = I + Vx (u16, release-mode wraparound). -/
def opFx1E (s : Chip8) (x : Nat) : Option (Chip8 × Nat) := do
  let vx ← s.v_registers[x]?
  some ({ s with i_register := (s.i_register + vx) % 65536 }, 2)

/-- Fx29: set I = FONT_ADDRESS + Vx * 5. -/
def opFx29 (s : Chip8) (x : Nat) : Option (Chip8 × Nat) := do
  let vx ← s.v_registers[x]?
  some ({ s with i_register := 0x50 + vx * 5 }, 2)

/-- Fx33: BCD of Vx at I, I+1, I+2. -/
def opFx33 (s : Chip8) (x : Nat) : Option (Chip8 × Nat) := do
  let vx ← s.v_registers[x]?
  let m1 ← writeArr s.memory s.i_register (vx / 100)
  let m2 ← writeArr m1 (s.i_register + 1) (vx / 10 % 10)
  let m3 ← writeArr m2 (s.i_register + 2) (vx % 10)
  some ({ s with memory := m3 }, 2)

/-- Fx55: store registers V0 through Vx. -/
def opFx55 (s : Chip8) (x : Nat) : Option (Chip8 × Nat) := do
  let s1 ← storeRegs x s
  some (s1, 2)

/-- Fx65: read registers V0 through Vx. -/
def opFx65 (s : Chip8) (x : Nat) : Option (Chip8 × Nat) := do
  let s1 ← loadRegs x s
  some (s1, 2)

/-- The opcode dispatch of Chip8::cycle: the Rust match over high_nibble
with its guards, arm for arm, in source order. Returns the updated state
and the pc increment (increment_pc). -/
def execOp (rnd : Nat) (k : List Bool) (s : Chip8)
    (instruction high_nibble low_nibble x y instr_low : Nat) :
    Option (Chip8 × Nat) :=
  if high_nibble = 0 ∧ instruction = 0x00E0 then op00E0 s
  else if high_nibble = 0 ∧ instruction = 0x00EE then op00EE s
  else if high_nibble = 1 then op1nnn s instruction
  else if high_nibble = 2 then op2nnn s instruction
  else if high_nibble = 3 then op3xkk s x instr_low
  else if high_nibble = 4 then op4xkk s x instr_low
  else if high_nibble = 5 ∧ low_nibble = 0 then op5xy0 s x y
  else if high_nibble = 6 then op6xkk s x instr_low
  else if high_nibble = 7 then op7xkk s x instr_low
  else if high_nibble = 8 ∧ low_nibble = 0 then op8xy0 s x y
  else if high_nibble = 8 ∧ low_nibble = 1 then op8xy1 s x y
  else if high_nibble = 8 ∧ low_nibble = 2 then op8xy2 s x y
  else if high_nibble = 8 ∧ low_nibble = 3 then op8xy3 s x y
  else if high_nibble = 8 ∧ low_nibble = 4 then op8xy4 s x y
  else if high_nibble = 8 ∧ low_nibble = 5 then op8xy5 s x y
  else if high_nibble = 8 ∧ low_nibble = 6 then op8xy6 s x y
  else if high_nibble = 8 ∧ low_nibble = 7 then op8xy7 s x y
  else if high_nibble = 8 ∧ low_nibble = 0xE then op8xyE s x y
  else if high_nibble = 9 ∧ low_nibble = 0 then op9xy0 s x y
  else if high_nibble = 0xA then opAnnn s instruction
  else if high_nibble = 0xB then opBnnn s instruction
  else if high_nibble = 0xC then opCxkk rnd s x instr_low
  else if high_nibble = 0xD then opDxyn s x y low_nibble
  else if high_nibble = 0xE ∧ instr_low = 0x9E then opEx9E k s x
  else if high_nibble = 0xE ∧ instr_low = 0xA1 then opExA1 k s x
  else if high_nibble = 0xF ∧ instr_low = 0x07 then opFx07 s x
  else if high_nibble = 0xF ∧ instr_low = 0x0A then opFx0A s x
  else if high_nibble = 0xF ∧ instr_low = 0x15 then opFx15 s x
  else if high_nibble = 0xF ∧ instr_low = 0x18 then opFx18 s x
  else if high_nibble = 0xF ∧ instr_low = 0x1E then opFx1E s x
  else if high_nibble = 0xF ∧ instr_low = 0x29 then opFx29 s x
  else if high_nibble = 0xF ∧ instr_low = 0x33 then opFx33 s x
  else if high_nibble = 0xF ∧ instr_low = 0x55 then opFx55 s x
  else if high_nibble = 0xF ∧ instr_low = 0x65 then opFx65 s x
  else some (s, 2)

/-- Chip8::cycle: one instruction cycle. If a key is being waited for, only
scan the keyboard; otherwise fetch, decode, execute, and advance pc by the
arm's increment. -/
def cycle (rnd : Nat) (k : List Bool) (s : Chip8) : Option Chip8 :=
  match s.waiting_for_key with
  | some reg =>
    match k.findIdx? (fun b => b) with
    | some kk => do
        let vr ← writeArr s.v_registers reg (kk % 256)
        some { s with v_registers := vr, waiting_for_key := none }
    | none => some s
  | none => do
    let instr_low ← s.memory[s.pc + 1]?
    let instr_high ← s.memory[s.pc]?
    let instruction := instr_low + (instr_high <<< 8)
    let res ← execOp rnd k s instruction (instr_high >>> 4) (instr_low &&& 0xf)
      ((instruction >>> 8) &&& 0xf) ((instruction >>> 4) &&& 0xf) instr_low
    some { res.1 with pc := res.1.pc + res.2 }

/-- The for loop of Chip8::frame: the first m cycles, cycle number j
consuming random byte rnd j, in increasing j order. -/
def runCycles (rnd : Nat → Nat) (k : List Bool) : Nat → Chip8 → Option Chip8
  | 0, s => some s
  | m + 1, s => do
      let s1 ← runCycles rnd k m s
      cycle (rnd m) k s1

/-- The timer update at the end of Chip8::frame. -/
def tickTimers (s : Chip8) : Chip8 :=
  { s with
    delay_timer := if s.delay_timer > 0 then s.delay_timer - 1 else 0,
    sound_timer := if s.sound_timer > 0 then s.sound_timer - 1 else 0 }

/-- Chip8::frame: cycles_per_frame cycles, then the timer decrements. -/
def frame (rnd : Nat → Nat) (k : List Bool) (s : Chip8) : Option Chip8 :=
  (runCycles rnd k s.cycles_per_frame s).map tickTimers

/-- The enumerate-and-store loops of Chip8::new: copy bytes into mem
starting at index start; none models the out-of-bounds panic. -/
def loadBytes (bytes : List Nat) (start : Nat) (mem : List Nat) : Option (List Nat) :=
  match bytes with
  | [] => some mem
  | b :: rest => do
      let m ← writeArr mem start b
      loadBytes rest (start + 1) m

/-- Chip8::new: zeroed state, font at 0x50, rom at ROM_START_ADDRESS. -/
def Chip8.new (rom_data : List Nat) : Option Chip8 := do
  let base : Chip8 := {
    memory := List.replicate 4096 0
    v_registers := List.replicate 16 0
    i_register := 0
    pc := 0x200
    screen := List.replicate 2048 0
    stack := List.replicate 16 0
    stack_pointer := 0
    sound_timer := 0
    delay_timer := 0
    waiting_for_key := none
    alternative_shift_mode := false
    cycles_per_frame := 8 }
  let m1 ← loadBytes FONT_DATA 0x50 base.memory
  let m2 ← loadBytes rom_data 0x200 m1
  some { base with memory := m2 }

/-! ### Auxiliary definitions used by the verification statements -/

/-- The screen index the Dxyn loop writes for sprite row iy, pixel ix, when
the drawing registers hold vx and vy. -/
def dpos (vx vy iy ix : Nat) : Nat := ((vy + iy) % 32) * 64 + ((vx + ix) % 64)

/-- The pixel value (0 or 255) the Dxyn loop derives from a sprite row byte. -/
def pvOf (row ix : Nat) : Nat := ((row >>> (7 - ix)) &&& 1) * 255

/-- Pure mirror of one Dxyn pixel step on (screen, collision flag), with the
coordinate registers held at their values vx, vy. drawPixel refines this
whenever x and y differ from 0xF (theorem drawPixel_dpix). -/
def dpix (vx vy iy row ix : Nat) (sf : List Nat × Nat) : List Nat × Nat :=
  (sf.1.set (dpos vx vy iy ix)
     ((sf.1[dpos vx vy iy ix]?).getD 0 ^^^ pvOf row ix),
   if (sf.1[dpos vx vy iy ix]?).getD 0 = 255 ∧ pvOf row ix = 255 then 1
   else sf.2)

/-- Pure mirror of the first m pixels of one Dxyn row. -/
def dpixs (vx vy iy row : Nat) : Nat → (List Nat × Nat) → (List Nat × Nat)
  | 0, sf => sf
  | m + 1, sf => dpix vx vy iy row m (dpixs vx vy iy row m sf)

/-- Pure mirror of the first m rows of a Dxyn draw, rows given by rowf. -/
def drows (vx vy : Nat) (rowf : Nat → Nat) : Nat → (List Nat × Nat) → (List Nat × Nat)
  | 0, sf => sf
  | m + 1, sf => dpixs vx vy m (rowf m) 8 (drows vx vy rowf m sf)

/-- Every framebuffer byte is 0 (unlit) or 255 (lit). -/
def ScreenInv (s : Chip8) : Prop := ∀ v ∈ s.screen, v = 0 ∨ v = 255

/-- States a and b agree on every field other than v_registers and screen:
the fields the Dxyn arm never writes. -/
def sameCore (a b : Chip8) : Prop :=
  a.memory = b.memory ∧ a.i_register = b.i_register ∧ a.pc = b.pc ∧
  a.stack = b.stack ∧ a.stack_pointer = b.stack_pointer ∧
  a.sound_timer = b.sound_timer ∧ a.delay_timer = b.delay_timer ∧
  a.waiting_for_key = b.waiting_for_key ∧
  a.alternative_shift_mode = b.alternative_shift_mode ∧
  a.cycles_per_frame = b.cycles_per_frame

/-- Register i of a possible cycle result, for concrete evaluations. -/
def regOf (i : Nat) (o : Option Chip8) : Option Nat :=
  o.bind (fun t => t.v_registers[i]?)

/-- Screen byte p of a possible result, for concrete evaluations. -/
def pixOf (p : Nat) (o : Option Chip8) : Option Nat :=
  o.bind (fun t => t.screen[p]?)

/-- A minimal machine around given memory and registers, for concrete tests. -/
def mkState (mem regs : List Nat) : Chip8 :=
  { memory := mem, v_registers := regs, i_register := 0, pc := 0,
    screen := List.replicate 2048 0, stack := List.replicate 16 0,
    stack_pointer := 0, sound_timer := 0, delay_timer := 0,
    waiting_for_key := none, alternative_shift_mode := false,
    cycles_per_frame := 8 }

/-- All-zero register file. -/
def regsZero : List Nat := List.replicate 16 0

/-- C1 input: instruction 8015 (V0 := V0 - V1) with V0 = 5, V1 = 3. -/
def c1State : Chip8 :=
  mkState [0x80, 0x15] [5, 3, 0, 0, 0, 0, 0, 0, 0, 0, 0, 0, 0, 0, 0, 0]

/-- C2 input: a rom that sets V0 := 16 and then executes Ex9E (key V0). -/
def c2Rom : List Nat := [0x60, 0x10, 0xE0, 0x9E]

/-- C4 witness machine: zero cycles per frame, delay timer 5, sound timer 0. -/
def c4State : Chip8 :=
  { mkState [] regsZero with cycles_per_frame := 0, delay_timer := 5 }

/-- C5 witness machine: 2002 (call 0x002) at pc 0, 00EE at 0x002. -/
def c5State : Chip8 := mkState [0x20, 0x02, 0x00, 0xEE] regsZero

/-- C5 witness: the state after the call of c5State (stack holds the call
address 0, stack pointer 1, pc at the subroutine 0x002). -/
def c5State1 : Chip8 :=
  { c5State with stack := c5State.stack.set 0 0, stack_pointer := 1, pc := 2 }

/-- C5 witness: the state after the matching return. -/
def c5State3 : Chip8 := { c5State1 with stack_pointer := 0, pc := 2 }

/-- C6 counterexample machine: one-byte sprite 0x80 at I = 0, drawn at
(V0, V1) = (0, 0) on a screen whose pixel 0 is already lit. -/
def c6State : Chip8 :=
  { mkState [0x80] regsZero with screen := 255 :: List.replicate 2047 0 }

/-- C6 witness machine: same sprite on an all-unlit screen. -/
def c6wState : Chip8 := mkState [0x80] regsZero

/-- C7 counterexample input: 80F6 (8xy6 with x = 0, y = F) with VF = 3. -/
def c7State : Chip8 := mkState [0x80, 0xF6] (List.replicate 15 0 ++ [3])

/-- C7 witness input: 8016 (8xy6 with x = 0, y = 1) with V1 = 5. -/
def c7wState : Chip8 :=
  mkState [0x80, 0x16] [0, 5, 0, 0, 0, 0, 0, 0, 0, 0, 0, 0, 0, 0, 0, 0]

/-- C8 machine: waiting for a key into V4. -/
def c8State : Chip8 := { mkState [] regsZero with waiting_for_key := some 4 }

/-- C8 keys: key 1 is the first pressed key. -/
def c8Keys : List Bool := false :: true :: List.replicate 14 false

/-- C9 counterexample input: 8F05 (8xy5 with x = F, y = 0), VF = 5, V0 = 3. -/
def c9State : Chip8 :=
  mkState [0x8F, 0x05] (3 :: (List.replicate 14 0 ++ [5]))

/-- C9 witness input: 8F04 (8xy4 with x = F, y = 0), VF = 5, V0 = 3. -/
def c9wState : Chip8 :=
  mkState [0x8F, 0x04] (3 :: (List.replicate 14 0 ++ [5]))

/-- C7 witness result state: 8016 quirk-off on c7wState. -/
def c7wState1 : Chip8 :=
  { c7wState with
    v_registers := (c7wState.v_registers.set 15 (5 &&& 1)).set 0 (5 >>> 1),
    pc := c7wState.pc + 2 }

/-- C10 witness machine: a two-byte screen, one unknown instruction. -/
def c10State : Chip8 := { mkState [0, 0] regsZero with screen := [0, 255] }

/-- C10 witness: c10State after its no-op cycle. -/
def c10State2 : Chip8 := { c10State with pc := 2 }

/-- C10 witness machine for the frame clause: zero cycles per frame. -/
def c10FState : Chip8 := { c10State with cycles_per_frame := 0 }

/-- C9 witness result state: 8F04 on c9wState. -/
def c9wState1 : Chip8 :=
  { c9wState with
    v_registers :=
      (c9wState.v_registers.set 15 (((5 + 3) >>> 8) &&& 1)).set 15 ((5 + 3) % 256),
    pc := c9wState.pc + 2 }

/-! ### Toolkit lemmas -/

theorem writeArr_some {α : Type} {l : List α} {i : Nat} {v : α} (h : i < l.length) :
    writeArr l i v = some (l.set i v) := by
  unfold writeArr; simp [h]

theorem writeArr_eq_some {α : Type} {l l' : List α} {i : Nat} {v : α} :
    writeArr l i v = some l' ↔ i < l.length ∧ l' = l.set i v := by
  unfold writeArr
  split <;> simp_all [eq_comm]

theorem lt_of_getElem?_some {α : Type} {l : List α} {i : Nat} {v : α}
    (h : l[i]? = some v) : i < l.length :=
  (List.getElem?_eq_some.mp h).1

theorem and_15_eq (a : Nat) : a &&& 15 = a % 16 := by
  have h := Nat.and_pow_two_sub_one_eq_mod a 4
  norm_num at h
  exact h

theorem and_1_eq (a : Nat) : a &&& 1 = a % 2 := Nat.and_one_is_mod a

theorem shr_4_eq (a : Nat) : a >>> 4 = a / 16 := by
  rw [Nat.shiftRight_eq_div_pow]

theorem shr_8_eq (a : Nat) : a >>> 8 = a / 256 := by
  rw [Nat.shiftRight_eq_div_pow]

theorem shl_8_eq (a : Nat) : a <<< 8 = a * 256 := by
  rw [Nat.shiftLeft_eq]

theorem findIdx?_first :
    ∀ (l : List Bool) (i start : Nat), l[i]? = some true →
      (∀ j, j < i → l[j]? = some false) →
      List.findIdx? (fun b => b) l start = some (start + i) := by
  intro l
  induction l with
  | nil => intro i start h _; simp at h
  | cons b t ih =>
    intro i start h hj
    cases i with
    | zero =>
      simp only [List.getElem?_cons_zero, Option.some.injEq] at h
      rw [List.findIdx?_cons, h]
      simp
    | succ n =>
      have hb : b = false := by
        have h0 := hj 0 (Nat.succ_pos n)
        simpa using h0
      rw [List.findIdx?_cons, hb]
      simp only [Bool.false_eq_true, if_false]
      have hrec := ih n (start + 1) (by simpa using h)
        (fun j hj2 => by
          have := hj (j + 1) (by omega)
          simpa using this)
      rw [hrec]
      congr 1
      omega

/-! ### loadBytes lemmas (construction-time capacity) -/

theorem loadBytes_length :
    ∀ (bytes : List Nat) (start : Nat) (mem mem' : List Nat),
      loadBytes bytes start mem = some mem' → mem'.length = mem.length := by
  intro bytes
  induction bytes with
  | nil =>
    intro start mem mem' h
    simp only [loadBytes, Option.some.injEq] at h
    rw [← h]
  | cons b rest ih =>
    intro start mem mem' h
    simp only [loadBytes, Option.bind_eq_bind', Option.bind_eq_some] at h
    obtain ⟨m, hm, hrec⟩ := h
    rw [writeArr_eq_some] at hm
    obtain ⟨hlt, rfl⟩ := hm
    have hr := ih _ _ _ hrec
    simpa using hr

theorem loadBytes_none :
    ∀ (bytes : List Nat) (start : Nat) (mem : List Nat),
      0 < bytes.length → mem.length < start + bytes.length →
      loadBytes bytes start mem = none := by
  intro bytes
  induction bytes with
  | nil => intro start mem h _; simp at h
  | cons b rest ih =>
    intro start mem _ hlt
    simp only [loadBytes]
    by_cases hs : start < mem.length
    · rw [writeArr_some hs]
      simp only [Option.bind_eq_bind', Option.some_bind']
      cases rest with
      | nil =>
        exfalso
        simp only [List.length_cons, List.length_nil] at hlt
        omega
      | cons c t =>
        apply ih
        · simp
        · simp only [List.length_set, List.length_cons] at hlt ⊢
          omega
    · have : writeArr mem start b = none := by unfold writeArr; simp [hs]
      rw [this]
      rfl

theorem loadBytes_isSome :
    ∀ (bytes : List Nat) (start : Nat) (mem : List Nat),
      start + bytes.length ≤ mem.length →
      ∃ m', loadBytes bytes start mem = some m' := by
  intro bytes
  induction bytes with
  | nil => intro start mem _; exact ⟨mem, rfl⟩
  | cons b rest ih =>
    intro start mem hle
    simp only [List.length_cons] at hle
    have hs : start < mem.length := by omega
    simp only [loadBytes, writeArr_some hs, Option.bind_eq_bind', Option.some_bind']
    apply ih
    simp only [List.length_set]
    omega

/-! ### Claim theorems -/

/-- C1 (code_bug evidence): executing 8xy5 with Vx = 5, Vy = 3 (so Vx > Vy)
leaves VF = 0, not the 1 the claim requires; the destination does receive
the wrapped difference 2. The code's flag assignment on line 156 is
inverted with respect to the claim, the spec, and the code's own
"VF = not borrow" comment. -/
theorem c1_subtract_flag_inverted :
    regOf 15 (cycle 0 [] c1State) = some 0 ∧
    regOf 0 (cycle 0 [] c1State) = some 2 ∧ 5 > 3 := by decide

theorem loadBytes_getElem?_lt :
    ∀ (bytes : List Nat) (start : Nat) (mem mem' : List Nat),
      loadBytes bytes start mem = some mem' →
      ∀ p, p < start → mem'[p]? = mem[p]? := by
  intro bytes
  induction bytes with
  | nil =>
    intro start mem mem' h p _
    simp only [loadBytes, Option.some.injEq] at h
    rw [← h]
  | cons b rest ih =>
    intro start mem mem' h p hp
    simp only [loadBytes, Option.bind_eq_bind', Option.bind_eq_some] at h
    obtain ⟨m, hm, hrec⟩ := h
    rw [writeArr_eq_some] at hm
    obtain ⟨hlt, rfl⟩ := hm
    rw [ih _ _ _ hrec p (by omega)]
    exact List.getElem?_set_ne (by omega)

theorem loadBytes_getElem? :
    ∀ (bytes : List Nat) (start : Nat) (mem mem' : List Nat),
      loadBytes bytes start mem = some mem' →
      ∀ i, i < bytes.length → mem'[start + i]? = bytes[i]? := by
  intro bytes
  induction bytes with
  | nil => intro start mem mem' _ i hi; simp at hi
  | cons b rest ih =>
    intro start mem mem' h i hi
    simp only [loadBytes, Option.bind_eq_bind', Option.bind_eq_some] at h
    obtain ⟨m, hm, hrec⟩ := h
    rw [writeArr_eq_some] at hm
    obtain ⟨hlt, rfl⟩ := hm
    cases i with
    | zero =>
      rw [Nat.add_zero, loadBytes_getElem?_lt _ _ _ _ hrec start (by omega)]
      simp [List.getElem?_set_eq_of_lt b hlt]
    | succ j =>
      have hr := ih _ _ _ hrec j (by simpa using hi)
      have heq : start + 1 + j = start + (j + 1) := by omega
      rw [heq] at hr
      rw [List.getElem?_cons_succ, hr]

/-- What Chip8::new produces when the image fits: the literal start state
with a 4096-byte memory holding the rom image at 0x200. -/
theorem new_eq (rom : List Nat) (h : 512 + rom.length ≤ 4096) :
    ∃ m2 : List Nat, Chip8.new rom = some
      { memory := m2, v_registers := List.replicate 16 0, i_register := 0,
        pc := 512, screen := List.replicate 2048 0,
        stack := List.replicate 16 0, stack_pointer := 0, sound_timer := 0,
        delay_timer := 0, waiting_for_key := none,
        alternative_shift_mode := false, cycles_per_frame := 8 } ∧
      m2.length = 4096 ∧ (∀ i, i < rom.length → m2[512 + i]? = rom[i]?) := by
  obtain ⟨m1, hm1⟩ :=
    loadBytes_isSome FONT_DATA 0x50 (List.replicate 4096 0)
      (by rw [List.length_replicate]; norm_num [FONT_DATA])
  have hlen1 : m1.length = 4096 := by
    have hl := loadBytes_length _ _ _ _ hm1
    rw [List.length_replicate] at hl
    exact hl
  obtain ⟨m2, hm2⟩ := loadBytes_isSome rom 512 m1 (by omega)
  have hlen2 : m2.length = 4096 := by rw [loadBytes_length _ _ _ _ hm2, hlen1]
  refine ⟨m2, ?_, hlen2, fun i hi => ?_⟩
  · simp only [Chip8.new, hm1, Option.bind_eq_bind', Option.some_bind', hm2]
  · exact loadBytes_getElem? _ _ _ _ hm2 i hi

/-- If a prefix of the cycles of a frame already panics, so does the rest. -/
theorem runCycles_none_mono (rnd : Nat → Nat) (k : List Bool) (m : Nat) (s : Chip8) :
    ∀ j, runCycles rnd k m s = none → runCycles rnd k (m + j) s = none := by
  intro j
  induction j with
  | zero => exact fun h => h
  | succ i ih =>
    intro h
    have hn := ih h
    show (runCycles rnd k (m + i) s).bind (cycle (rnd (m + i)) k) = none
    rw [hn]
    rfl

/-- First executed instruction of the C2 rom: 6010 stores 16 into V0 and
advances pc to 514. Stated over arbitrary screen, stack and register
contents so the kernel never has to evaluate the 4096- and 2048-element
start arrays. -/
theorem c2_step1 (m2 scr : List Nat) (stk : List Nat) (vr : List Nat)
    (hlen : vr.length = 16)
    (hf0 : m2[512]? = some 0x60) (hf1 : m2[513]? = some 0x10) :
    cycle 0 (List.replicate 16 false)
      { memory := m2, v_registers := vr, i_register := 0,
        pc := 512, screen := scr, stack := stk, stack_pointer := 0,
        sound_timer := 0, delay_timer := 0, waiting_for_key := none,
        alternative_shift_mode := false, cycles_per_frame := 8 } = some
      { memory := m2, v_registers := vr.set 0 16, i_register := 0,
        pc := 514, screen := scr, stack := stk, stack_pointer := 0,
        sound_timer := 0, delay_timer := 0, waiting_for_key := none,
        alternative_shift_mode := false, cycles_per_frame := 8 } := by
  simp only [cycle, hf0, hf1, Option.bind_eq_bind', Option.some_bind', execOp,
    shr_4_eq, shr_8_eq, shl_8_eq, and_15_eq]
  norm_num [op6xkk, writeArr, hlen]

/-- Second executed instruction of the C2 rom: E09E reads key number
V0 = 16 out of the 16-entry key vector, which panics (none). -/
theorem c2_step2 (m2 scr : List Nat) (stk : List Nat) (vr : List Nat)
    (h0 : vr[0]? = some 16)
    (hf2 : m2[514]? = some 0xE0) (hf3 : m2[515]? = some 0x9E) :
    cycle 0 (List.replicate 16 false)
      { memory := m2, v_registers := vr, i_register := 0,
        pc := 514, screen := scr, stack := stk, stack_pointer := 0,
        sound_timer := 0, delay_timer := 0, waiting_for_key := none,
        alternative_shift_mode := false, cycles_per_frame := 8 } = none := by
  simp only [cycle, hf2, hf3, Option.bind_eq_bind', Option.some_bind', execOp,
    shr_4_eq, shr_8_eq, shl_8_eq, and_15_eq]
  norm_num [opEx9E, h0, List.getElem?_replicate]

/-- C2 (code_bug evidence): from the freshly constructed machine for the
rom 6010 (V0 := 16), E09E (skip if key V0 pressed), the very first frame
advance panics: Ex9E indexes the 16-entry key vector with 16. In the
embedding the panic is the none result. -/
theorem c2_frame_panics :
    (Chip8.new c2Rom).bind (frame (fun _ => 0) (List.replicate 16 false)) = none := by
  obtain ⟨m2, hnew, hlen, hget⟩ := new_eq c2Rom (by simp [c2Rom])
  have hf0 : m2[512]? = some 0x60 := by
    have h0 := hget 0 (by decide)
    rw [(by decide : c2Rom[0]? = some 0x60)] at h0
    simpa using h0
  have hf1 : m2[513]? = some 0x10 := by
    have h0 := hget 1 (by decide)
    rw [(by decide : c2Rom[1]? = some 0x10)] at h0
    simpa using h0
  have hf2 : m2[514]? = some 0xE0 := by
    have h0 := hget 2 (by decide)
    rw [(by decide : c2Rom[2]? = some 0xE0)] at h0
    simpa using h0
  have hf3 : m2[515]? = some 0x9E := by
    have h0 := hget 3 (by decide)
    rw [(by decide : c2Rom[3]? = some 0x9E)] at h0
    simpa using h0
  rw [hnew]
  simp only [Option.bind_eq_bind', Option.some_bind']
  have hc0 := c2_step1 m2 (List.replicate 2048 0) (List.replicate 16 0)
    (List.replicate 16 0) (List.length_replicate 16 0) hf0 hf1
  have hc1 := c2_step2 m2 (List.replicate 2048 0) (List.replicate 16 0)
    ((List.replicate 16 0).set 0 16)
    (List.getElem?_set_eq_of_lt 16 (by rw [List.length_replicate]; norm_num))
    hf2 hf3
  have h2 : runCycles (fun _ => 0) (List.replicate 16 false) 2
      { memory := m2, v_registers := List.replicate 16 0, i_register := 0,
        pc := 512, screen := List.replicate 2048 0,
        stack := List.replicate 16 0, stack_pointer := 0, sound_timer := 0,
        delay_timer := 0, waiting_for_key := none,
        alternative_shift_mode := false, cycles_per_frame := 8 } = none := by
    simp only [runCycles, Option.bind_eq_bind', Option.some_bind', hc0, hc1]
  have h8 := runCycles_none_mono (fun _ => 0) (List.replicate 16 false) 2 _ 6 h2
  norm_num at h8
  have hfr : frame (fun _ => 0) (List.replicate 16 false)
      { memory := m2, v_registers := List.replicate 16 0, i_register := 0,
        pc := 512, screen := List.replicate 2048 0,
        stack := List.replicate 16 0, stack_pointer := 0, sound_timer := 0,
        delay_timer := 0, waiting_for_key := none,
        alternative_shift_mode := false, cycles_per_frame := 8 } =
      (runCycles (fun _ => 0) (List.replicate 16 false) 8
        { memory := m2, v_registers := List.replicate 16 0, i_register := 0,
          pc := 512, screen := List.replicate 2048 0,
          stack := List.replicate 16 0, stack_pointer := 0, sound_timer := 0,
          delay_timer := 0, waiting_for_key := none,
          alternative_shift_mode := false, cycles_per_frame := 8 }).map tickTimers := rfl
  rw [hfr, h8]
  rfl

/-- C3 (code_bug evidence and the true half): a 3585-byte image (one more
than 4096 - 0x200 = 3584) makes construction panic by writing out of
bounds - modelled as none, not an OutOfBounds error value - while any
image of at most 3584 bytes constructs successfully. -/
theorem c3_new_capacity :
    Chip8.new (List.replicate 3585 0) = none ∧
    ∀ rom : List Nat, rom.length ≤ 3584 → (Chip8.new rom).isSome = true := by
  obtain ⟨m1, hm1⟩ :=
    loadBytes_isSome FONT_DATA 0x50 (List.replicate 4096 0)
      (by rw [List.length_replicate]; norm_num [FONT_DATA])
  have hlen1 : m1.length = 4096 := by
    have hl := loadBytes_length _ _ _ _ hm1
    rw [List.length_replicate] at hl
    exact hl
  constructor
  · have hnone : loadBytes (List.replicate 3585 0) 0x200 m1 = none := by
      apply loadBytes_none
      · rw [List.length_replicate]
        norm_num
      · rw [hlen1, List.length_replicate]
        norm_num
    simp only [Chip8.new, hm1, Option.bind_eq_bind', Option.some_bind', hnone,
      Option.none_bind']
  · intro rom hrom
    obtain ⟨m2, hm2⟩ := loadBytes_isSome rom 0x200 m1 (by omega)
    simp only [Chip8.new, hm1, Option.bind_eq_bind', Option.some_bind', hm2,
      Option.isSome_some]

/-- C3 witness: the empty image satisfies the length bound and constructs. -/
theorem c3_new_capacity_witness :
    ([] : List Nat).length ≤ 3584 ∧ (Chip8.new []).isSome = true :=
  ⟨by decide, c3_new_capacity.2 [] (by decide)⟩

/-- C4: a frame advance is exactly cycles_per_frame invocations of cycle
(runCycles n is the n-fold monadic iteration of cycle, one random byte per
cycle, and a key-servicing call counts like any other) followed by the
timer update, which decrements each timer by exactly 1 when positive and
leaves it at 0 otherwise. -/
theorem c4_frame_cycles_and_timers (rnd : Nat → Nat) (k : List Bool) (s s' : Chip8)
    (h : runCycles rnd k s.cycles_per_frame s = some s') :
    frame rnd k s = some (tickTimers s') ∧
    (∀ (m : Nat) (t : Chip8),
        runCycles rnd k (m + 1) t = (runCycles rnd k m t).bind (cycle (rnd m) k)) ∧
    runCycles rnd k 0 s = some s ∧
    (0 < s'.delay_timer → (tickTimers s').delay_timer = s'.delay_timer - 1) ∧
    (s'.delay_timer = 0 → (tickTimers s').delay_timer = 0) ∧
    (0 < s'.sound_timer → (tickTimers s').sound_timer = s'.sound_timer - 1) ∧
    (s'.sound_timer = 0 → (tickTimers s').sound_timer = 0) := by
  refine ⟨?_, fun m t => rfl, rfl, ?_, ?_, ?_, ?_⟩
  · unfold frame
    rw [h]
    rfl
  · intro hd; simp [tickTimers, hd]
  · intro hd; simp [tickTimers, hd]
  · intro hs; simp [tickTimers, hs]
  · intro hs; simp [tickTimers, hs]

/-- C4 witness: with cycles_per_frame = 0 the cycle iteration is immediate
and a frame advance takes the delay timer from 5 to 4 and leaves the sound
timer at 0. -/
theorem c4_frame_cycles_and_timers_witness :
    runCycles (fun _ => 0) [] c4State.cycles_per_frame c4State = some c4State ∧
    frame (fun _ => 0) [] c4State = some (tickTimers c4State) ∧
    (tickTimers c4State).delay_timer = 4 ∧
    (tickTimers c4State).sound_timer = 0 :=
  ⟨rfl, (c4_frame_cycles_and_timers (fun _ => 0) [] c4State c4State rfl).1,
    by decide, by decide⟩

/-- C8: while waiting_for_key is set, a cycle with no pressed key is a
complete no-op (no fetch, no state change), and a cycle whose key vector
has its first pressed key at index i stores i into the target register,
clears the wait, and changes nothing else. -/
theorem c8_key_wait (rnd : Nat) (k : List Bool) (s : Chip8) (reg : Nat)
    (hw : s.waiting_for_key = some reg) (hreg : reg < 16)
    (hlen : s.v_registers.length = 16) (hk : k.length = 16) :
    ((∀ b ∈ k, b = false) → cycle rnd k s = some s) ∧
    (∀ i, k[i]? = some true → (∀ j, j < i → k[j]? = some false) →
      cycle rnd k s = some { s with v_registers := s.v_registers.set reg i,
                                    waiting_for_key := none }) := by
  constructor
  · intro hall
    have hnone : List.findIdx? (fun b => b) k = none := by
      rw [List.findIdx?_eq_none_iff]
      intro b hb
      simp [hall b hb]
    simp only [cycle, hw, hnone]
  · intro i hi hj
    have hfind : List.findIdx? (fun b => b) k = some i := by
      have h0 := findIdx?_first k i 0 hi hj
      simpa using h0
    have hilt : i < 16 := by
      have := lt_of_getElem?_some hi
      omega
    have hmod : i % 256 = i := Nat.mod_eq_of_lt (by omega)
    simp only [cycle, hw, hfind, writeArr_some (hlen ▸ hreg), hmod,
      Option.bind_eq_bind', Option.some_bind']

/-- C8 witness: waiting into V4 with key 1 the first pressed key stores 1
into V4 and clears the wait. -/
theorem c8_key_wait_witness :
    cycle 0 c8Keys c8State =
      some { c8State with v_registers := c8State.v_registers.set 4 1,
                          waiting_for_key := none } := by
  have h := (c8_key_wait 0 c8Keys c8State 4 rfl (by decide) (by decide)
      (by decide)).2 1 (by decide)
    (fun j hj => by
      have hj0 : j = 0 := Nat.lt_one_iff.mp hj
      subst hj0
      decide)
  simpa using h

/-- C5: executing 2nnn (call is not waiting, the two fetched bytes have
high nibble 2, the 16-entry stack is not full) pushes the address of the
call instruction itself and jumps to nnn; a later 00EE executed with the
same stack and stack pointer pops it, and the pc after that return cycle
is the call address plus 2: the instruction right after the 2nnn. -/
theorem c5_call_return_roundtrip
    (s s1 s2 s3 : Chip8) (rnd1 rnd2 : Nat) (k1 k2 : List Bool) (hi lo : Nat)
    (hw : s.waiting_for_key = none)
    (hfhi : s.memory[s.pc]? = some hi)
    (hflo : s.memory[s.pc + 1]? = some lo)
    (hhi : hi >>> 4 = 2)
    (hstklen : s.stack.length = 16)
    (hsp : s.stack_pointer < 16)
    (hpc : s.pc < 65536)
    (hc1 : cycle rnd1 k1 s = some s1)
    (hst2 : s2.stack = s1.stack)
    (hsp2 : s2.stack_pointer = s1.stack_pointer)
    (hw2 : s2.waiting_for_key = none)
    (hf2hi : s2.memory[s2.pc]? = some 0x00)
    (hf2lo : s2.memory[s2.pc + 1]? = some 0xEE)
    (hc2 : cycle rnd2 k2 s2 = some s3) :
    s1.pc = (lo + (hi <<< 8)) &&& 0xfff ∧
    s1.stack_pointer = s.stack_pointer + 1 ∧
    s1.stack = s.stack.set s.stack_pointer s.pc ∧
    s1.memory = s.memory ∧ s1.waiting_for_key = none ∧
    s3.pc = s.pc + 2 := by
  have hmod : s.pc % 65536 = s.pc := Nat.mod_eq_of_lt hpc
  have hwrite : writeArr s.stack s.stack_pointer (s.pc % 65536)
      = some (s.stack.set s.stack_pointer s.pc) := by
    rw [hmod]
    exact writeArr_some (by omega)
  have heval1 : cycle rnd1 k1 s = some
      { s with stack := s.stack.set s.stack_pointer s.pc,
               stack_pointer := s.stack_pointer + 1,
               pc := (lo + (hi <<< 8)) &&& 0xfff } := by
    simp only [cycle, hw, hfhi, hflo, Option.bind_eq_bind', Option.some_bind',
      execOp, op2nnn, hhi, hwrite]
    norm_num
  rw [heval1, Option.some.injEq] at hc1
  subst hc1
  have hspn : s2.stack_pointer = s.stack_pointer + 1 := hsp2
  have hret : s2.stack[s2.stack_pointer - 1]? = some s.pc := by
    rw [hst2, hspn, Nat.add_sub_cancel]
    exact List.getElem?_set_eq_of_lt _ (by omega)
  have heval2 : cycle rnd2 k2 s2 = some
      { s2 with stack_pointer := s2.stack_pointer - 1, pc := s.pc + 2 } := by
    have hne : ¬ s2.stack_pointer = 0 := by omega
    simp only [cycle, hw2, hf2hi, hf2lo, Option.bind_eq_bind', Option.some_bind',
      execOp, op00EE, hne, if_false, hret]
    norm_num
  rw [heval2, Option.some.injEq] at hc2
  subst hc2
  exact ⟨rfl, rfl, rfl, rfl, hw, rfl⟩

/-- C5 witness: the four-byte program 2002, 00EE from address 0. -/
theorem c5_call_return_roundtrip_witness : c5State3.pc = c5State.pc + 2 :=
  (c5_call_return_roundtrip c5State c5State1 c5State1 c5State3 0 0 [] [] 0x20 0x02
    rfl rfl rfl (by decide) rfl (by decide) (by decide)
    rfl rfl rfl rfl rfl rfl rfl).2.2.2.2.2

/-! ### Decode and single-instruction lemmas for the 8xy* family -/

theorem decode8 (xv yv c : Nat) (hx : xv < 16) (hy : yv < 16) (hc : c < 16) :
    (128 + xv) >>> 4 = 8 ∧ (yv * 16 + c) &&& 15 = c ∧
    ((yv * 16 + c + (128 + xv) <<< 8) >>> 8) &&& 15 = xv ∧
    ((yv * 16 + c + (128 + xv) <<< 8) >>> 4) &&& 15 = yv := by
  simp only [shr_4_eq, shr_8_eq, shl_8_eq, and_15_eq]
  omega

theorem cycle_8xy4 (rnd : Nat) (k : List Bool) (s : Chip8) (xv yv vx vy : Nat)
    (hx : xv < 16) (hy : yv < 16)
    (hw : s.waiting_for_key = none) (hlen : s.v_registers.length = 16)
    (hvx : s.v_registers[xv]? = some vx) (hvy : s.v_registers[yv]? = some vy)
    (hfhi : s.memory[s.pc]? = some (128 + xv))
    (hflo : s.memory[s.pc + 1]? = some (yv * 16 + 4)) :
    cycle rnd k s = some
      { s with
        v_registers :=
          (s.v_registers.set 15 (((vx + vy) >>> 8) &&& 1)).set xv ((vx + vy) % 256),
        pc := s.pc + 2 } := by
  have hd := decode8 xv yv 4 hx hy (by norm_num)
  have hwr1 : writeArr s.v_registers 15 (((vx + vy) >>> 8) &&& 1) =
      some (s.v_registers.set 15 (((vx + vy) >>> 8) &&& 1)) :=
    writeArr_some (by omega)
  have hwr2 : writeArr (s.v_registers.set 15 (((vx + vy) >>> 8) &&& 1)) xv
      ((vx + vy) % 256) = some
      ((s.v_registers.set 15 (((vx + vy) >>> 8) &&& 1)).set xv ((vx + vy) % 256)) :=
    writeArr_some (by rw [List.length_set]; omega)
  simp only [cycle, hw, hfhi, hflo, Option.bind_eq_bind', Option.some_bind',
    execOp, op8xy4, hd.1, hd.2.1, hd.2.2.1, hd.2.2.2, hvx, hvy, hwr1, hwr2]
  norm_num

theorem cycle_8xy5 (rnd : Nat) (k : List Bool) (s : Chip8) (xv yv vx0 vy0 vx1 vy1 : Nat)
    (hx : xv < 16) (hy : yv < 16)
    (hw : s.waiting_for_key = none) (hlen : s.v_registers.length = 16)
    (hvx0 : s.v_registers[xv]? = some vx0) (hvy0 : s.v_registers[yv]? = some vy0)
    (hvx1 : (s.v_registers.set 15 (if vx0 > vy0 then 0 else 1))[xv]? = some vx1)
    (hvy1 : (s.v_registers.set 15 (if vx0 > vy0 then 0 else 1))[yv]? = some vy1)
    (hfhi : s.memory[s.pc]? = some (128 + xv))
    (hflo : s.memory[s.pc + 1]? = some (yv * 16 + 5)) :
    cycle rnd k s = some
      { s with
        v_registers :=
          (s.v_registers.set 15 (if vx0 > vy0 then 0 else 1)).set xv (wsub8 vx1 vy1),
        pc := s.pc + 2 } := by
  have hd := decode8 xv yv 5 hx hy (by norm_num)
  have hwr1 : writeArr s.v_registers 15 (if vx0 > vy0 then 0 else 1) =
      some (s.v_registers.set 15 (if vx0 > vy0 then 0 else 1)) :=
    writeArr_some (by omega)
  have hwr2 : writeArr (s.v_registers.set 15 (if vx0 > vy0 then 0 else 1)) xv
      (wsub8 vx1 vy1) = some
      ((s.v_registers.set 15 (if vx0 > vy0 then 0 else 1)).set xv (wsub8 vx1 vy1)) :=
    writeArr_some (by rw [List.length_set]; omega)
  simp only [cycle, hw, hfhi, hflo, Option.bind_eq_bind', Option.some_bind',
    execOp, op8xy5, hd.1, hd.2.1, hd.2.2.1, hd.2.2.2, hvx0, hvy0, hvx1, hvy1, hwr1, hwr2]
  norm_num

theorem cycle_8xy6 (rnd : Nat) (k : List Bool) (s : Chip8) (xv yv ov vo0 vo1 : Nat)
    (hx : xv < 16) (hy : yv < 16)
    (hw : s.waiting_for_key = none) (hlen : s.v_registers.length = 16)
    (hother : (if s.alternative_shift_mode then xv else yv) = ov)
    (hvo0 : s.v_registers[ov]? = some vo0)
    (hvo1 : (s.v_registers.set 15 (vo0 &&& 1))[ov]? = some vo1)
    (hfhi : s.memory[s.pc]? = some (128 + xv))
    (hflo : s.memory[s.pc + 1]? = some (yv * 16 + 6)) :
    cycle rnd k s = some
      { s with
        v_registers := (s.v_registers.set 15 (vo0 &&& 1)).set xv (vo1 >>> 1),
        pc := s.pc + 2 } := by
  have hd := decode8 xv yv 6 hx hy (by norm_num)
  have hwr1 : writeArr s.v_registers 15 (vo0 &&& 1) =
      some (s.v_registers.set 15 (vo0 &&& 1)) :=
    writeArr_some (by omega)
  have hwr2 : writeArr (s.v_registers.set 15 (vo0 &&& 1)) xv (vo1 >>> 1) = some
      ((s.v_registers.set 15 (vo0 &&& 1)).set xv (vo1 >>> 1)) :=
    writeArr_some (by rw [List.length_set]; omega)
  simp only [cycle, hw, hfhi, hflo, Option.bind_eq_bind', Option.some_bind',
    execOp, op8xy6, hd.1, hd.2.1, hd.2.2.1, hd.2.2.2, hother, hvo0, hvo1, hwr1, hwr2]
  norm_num

theorem cycle_8xy7 (rnd : Nat) (k : List Bool) (s : Chip8) (xv yv vx0 vy0 vx1 vy1 : Nat)
    (hx : xv < 16) (hy : yv < 16)
    (hw : s.waiting_for_key = none) (hlen : s.v_registers.length = 16)
    (hvx0 : s.v_registers[xv]? = some vx0) (hvy0 : s.v_registers[yv]? = some vy0)
    (hvx1 : (s.v_registers.set 15 (if vy0 > vx0 then 1 else 0))[xv]? = some vx1)
    (hvy1 : (s.v_registers.set 15 (if vy0 > vx0 then 1 else 0))[yv]? = some vy1)
    (hfhi : s.memory[s.pc]? = some (128 + xv))
    (hflo : s.memory[s.pc + 1]? = some (yv * 16 + 7)) :
    cycle rnd k s = some
      { s with
        v_registers :=
          (s.v_registers.set 15 (if vy0 > vx0 then 1 else 0)).set xv (wsub8 vy1 vx1),
        pc := s.pc + 2 } := by
  have hd := decode8 xv yv 7 hx hy (by norm_num)
  have hwr1 : writeArr s.v_registers 15 (if vy0 > vx0 then 1 else 0) =
      some (s.v_registers.set 15 (if vy0 > vx0 then 1 else 0)) :=
    writeArr_some (by omega)
  have hwr2 : writeArr (s.v_registers.set 15 (if vy0 > vx0 then 1 else 0)) xv
      (wsub8 vy1 vx1) = some
      ((s.v_registers.set 15 (if vy0 > vx0 then 1 else 0)).set xv (wsub8 vy1 vx1)) :=
    writeArr_some (by rw [List.length_set]; omega)
  simp only [cycle, hw, hfhi, hflo, Option.bind_eq_bind', Option.some_bind',
    execOp, op8xy7, hd.1, hd.2.1, hd.2.2.1, hd.2.2.2, hvx0, hvy0, hvx1, hvy1, hwr1, hwr2]
  norm_num

theorem cycle_8xyE (rnd : Nat) (k : List Bool) (s : Chip8) (xv yv ov vo0 vo1 : Nat)
    (hx : xv < 16) (hy : yv < 16)
    (hw : s.waiting_for_key = none) (hlen : s.v_registers.length = 16)
    (hother : (if s.alternative_shift_mode then xv else yv) = ov)
    (hvo0 : s.v_registers[ov]? = some vo0)
    (hvo1 : (s.v_registers.set 15 (vo0 &&& 0x80))[ov]? = some vo1)
    (hfhi : s.memory[s.pc]? = some (128 + xv))
    (hflo : s.memory[s.pc + 1]? = some (yv * 16 + 14)) :
    cycle rnd k s = some
      { s with
        v_registers :=
          (s.v_registers.set 15 (vo0 &&& 0x80)).set xv ((vo1 <<< 1) % 256),
        pc := s.pc + 2 } := by
  have hd := decode8 xv yv 14 hx hy (by norm_num)
  have hwr1 : writeArr s.v_registers 15 (vo0 &&& 0x80) =
      some (s.v_registers.set 15 (vo0 &&& 0x80)) :=
    writeArr_some (by omega)
  have hwr2 : writeArr (s.v_registers.set 15 (vo0 &&& 0x80)) xv
      ((vo1 <<< 1) % 256) = some
      ((s.v_registers.set 15 (vo0 &&& 0x80)).set xv ((vo1 <<< 1) % 256)) :=
    writeArr_some (by rw [List.length_set]; omega)
  simp only [cycle, hw, hfhi, hflo, Option.bind_eq_bind', Option.some_bind',
    execOp, op8xyE, hd.1, hd.2.1, hd.2.2.1, hd.2.2.2, hother, hvo0, hvo1, hwr1, hwr2]
  norm_num

/-- C7 counterexample: 80F6 (8xy6, x = 0, operand register y = F) with
VF = 3 and shift-quirk disabled. The claim predicts V0 = operand >> 1 =
3 >> 1 = 1, but the code re-reads the operand register after the flag
write VF := 3 & 1 = 1, so V0 ends 1 >> 1 = 0. -/
theorem c7_shift_operand_alias_counterexample :
    regOf 0 (cycle 0 [] c7State) = some 0 ∧
    regOf 15 (cycle 0 [] c7State) = some 1 ∧
    regOf 0 (cycle 0 [] c7State) ≠ some (3 >>> 1) := by decide

/-- C7 amended: the claimed 8xy6/8xyE semantics (flag = operand & 1 resp.
operand & 0x80 unnormalized, result = operand >> 1 resp. operand << 1
truncated, operand = Vy with quirk off and Vx with quirk on) holds
whenever x is not F and the operand register is not F; when the operand
register is VF the second assignment re-reads the freshly written flag. -/
theorem c7_shift_amended :
    (∀ (rnd : Nat) (k : List Bool) (s s2 : Chip8) (xv yv vy : Nat),
      xv < 16 → yv < 16 → xv ≠ 15 → yv ≠ 15 →
      s.waiting_for_key = none → s.alternative_shift_mode = false →
      s.v_registers.length = 16 → s.v_registers[yv]? = some vy →
      s.memory[s.pc]? = some (128 + xv) →
      s.memory[s.pc + 1]? = some (yv * 16 + 6) →
      cycle rnd k s = some s2 →
      s2.v_registers[15]? = some (vy &&& 1) ∧
      s2.v_registers[xv]? = some (vy >>> 1)) ∧
    (∀ (rnd : Nat) (k : List Bool) (s s2 : Chip8) (xv yv vy : Nat),
      xv < 16 → yv < 16 → xv ≠ 15 → yv ≠ 15 →
      s.waiting_for_key = none → s.alternative_shift_mode = false →
      s.v_registers.length = 16 → s.v_registers[yv]? = some vy →
      s.memory[s.pc]? = some (128 + xv) →
      s.memory[s.pc + 1]? = some (yv * 16 + 14) →
      cycle rnd k s = some s2 →
      s2.v_registers[15]? = some (vy &&& 0x80) ∧
      s2.v_registers[xv]? = some ((vy <<< 1) % 256)) ∧
    (∀ (rnd : Nat) (k : List Bool) (s s2 : Chip8) (xv yv vx : Nat),
      xv < 16 → yv < 16 → xv ≠ 15 →
      s.waiting_for_key = none → s.alternative_shift_mode = true →
      s.v_registers.length = 16 → s.v_registers[xv]? = some vx →
      s.memory[s.pc]? = some (128 + xv) →
      s.memory[s.pc + 1]? = some (yv * 16 + 6) →
      cycle rnd k s = some s2 →
      s2.v_registers[15]? = some (vx &&& 1) ∧
      s2.v_registers[xv]? = some (vx >>> 1)) ∧
    (∀ (rnd : Nat) (k : List Bool) (s s2 : Chip8) (xv yv vx : Nat),
      xv < 16 → yv < 16 → xv ≠ 15 →
      s.waiting_for_key = none → s.alternative_shift_mode = true →
      s.v_registers.length = 16 → s.v_registers[xv]? = some vx →
      s.memory[s.pc]? = some (128 + xv) →
      s.memory[s.pc + 1]? = some (yv * 16 + 14) →
      cycle rnd k s = some s2 →
      s2.v_registers[15]? = some (vx &&& 0x80) ∧
      s2.v_registers[xv]? = some ((vx <<< 1) % 256)) := by
  refine ⟨?_, ?_, ?_, ?_⟩
  · intro rnd k s s2 xv yv vy hxv hyv hx15 hy15 hw hq hlen hvy hfhi hflo hc
    have hother : (if s.alternative_shift_mode then xv else yv) = yv := by
      simp [hq]
    have hvo1 : (s.v_registers.set 15 (vy &&& 1))[yv]? = some vy := by
      rw [List.getElem?_set_ne (by omega)]
      exact hvy
    have heval := cycle_8xy6 rnd k s xv yv yv vy vy hxv hyv hw hlen hother hvy
      hvo1 hfhi hflo
    rw [heval, Option.some.injEq] at hc
    subst hc
    constructor
    · show ((s.v_registers.set 15 (vy &&& 1)).set xv (vy >>> 1))[15]? =
        some (vy &&& 1)
      rw [List.getElem?_set_ne (by omega)]
      exact List.getElem?_set_eq_of_lt _ (by omega)
    · exact List.getElem?_set_eq_of_lt _ (by rw [List.length_set]; omega)
  · intro rnd k s s2 xv yv vy hxv hyv hx15 hy15 hw hq hlen hvy hfhi hflo hc
    have hother : (if s.alternative_shift_mode then xv else yv) = yv := by
      simp [hq]
    have hvo1 : (s.v_registers.set 15 (vy &&& 0x80))[yv]? = some vy := by
      rw [List.getElem?_set_ne (by omega)]
      exact hvy
    have heval := cycle_8xyE rnd k s xv yv yv vy vy hxv hyv hw hlen hother hvy
      hvo1 hfhi hflo
    rw [heval, Option.some.injEq] at hc
    subst hc
    constructor
    · show ((s.v_registers.set 15 (vy &&& 0x80)).set xv ((vy <<< 1) % 256))[15]? =
        some (vy &&& 0x80)
      rw [List.getElem?_set_ne (by omega)]
      exact List.getElem?_set_eq_of_lt _ (by omega)
    · exact List.getElem?_set_eq_of_lt _ (by rw [List.length_set]; omega)
  · intro rnd k s s2 xv yv vx hxv hyv hx15 hw hq hlen hvx hfhi hflo hc
    have hother : (if s.alternative_shift_mode then xv else yv) = xv := by
      simp [hq]
    have hvo1 : (s.v_registers.set 15 (vx &&& 1))[xv]? = some vx := by
      rw [List.getElem?_set_ne (by omega)]
      exact hvx
    have heval := cycle_8xy6 rnd k s xv yv xv vx vx hxv hyv hw hlen hother hvx
      hvo1 hfhi hflo
    rw [heval, Option.some.injEq] at hc
    subst hc
    constructor
    · show ((s.v_registers.set 15 (vx &&& 1)).set xv (vx >>> 1))[15]? =
        some (vx &&& 1)
      rw [List.getElem?_set_ne (by omega)]
      exact List.getElem?_set_eq_of_lt _ (by omega)
    · exact List.getElem?_set_eq_of_lt _ (by rw [List.length_set]; omega)
  · intro rnd k s s2 xv yv vx hxv hyv hx15 hw hq hlen hvx hfhi hflo hc
    have hother : (if s.alternative_shift_mode then xv else yv) = xv := by
      simp [hq]
    have hvo1 : (s.v_registers.set 15 (vx &&& 0x80))[xv]? = some vx := by
      rw [List.getElem?_set_ne (by omega)]
      exact hvx
    have heval := cycle_8xyE rnd k s xv yv xv vx vx hxv hyv hw hlen hother hvx
      hvo1 hfhi hflo
    rw [heval, Option.some.injEq] at hc
    subst hc
    constructor
    · show ((s.v_registers.set 15 (vx &&& 0x80)).set xv ((vx <<< 1) % 256))[15]? =
        some (vx &&& 0x80)
      rw [List.getElem?_set_ne (by omega)]
      exact List.getElem?_set_eq_of_lt _ (by omega)
    · exact List.getElem?_set_eq_of_lt _ (by rw [List.length_set]; omega)

/-- C7 witness: 8016 quirk-off with V1 = 5 gives VF = 5 & 1, V0 = 5 >> 1. -/
theorem c7_shift_amended_witness :
    c7wState1.v_registers[15]? = some (5 &&& 1) ∧
    c7wState1.v_registers[0]? = some (5 >>> 1) :=
  c7_shift_amended.1 0 [] c7wState c7wState1 0 1 5 (by decide) (by decide)
    (by decide) (by decide) rfl rfl rfl rfl rfl rfl rfl

/-- C9 counterexample: 8F05 (8xy5 with x = F, y = 0), VF = 5, V0 = 3.
Reading the claim's "operation's data result" as Vx - Vy over the original
operands (VF - V0 = 5 - 3 = wsub8 5 3 = 2), the code disagrees: the
subtraction re-reads VF after the flag write (flag = 0 because 5 > 3), so
the final VF is 0 - 3 mod 256 = 253. -/
theorem c9_flag_overwrite_counterexample :
    regOf 15 (cycle 0 [] c9State) = some 253 ∧
    regOf 15 (cycle 0 [] c9State) ≠ some (wsub8 5 3) := by decide

/-- C9 amended: with x = F every flag-writing 8xy* op overwrites the
carry/borrow/shift flag with the value of the subsequent data write, but
that value is computed from the registers as they stand after the flag
write: 8xF4 ends with (VF + Vy) mod 256 (operands precomputed); 8xF5 ends
with (flag - Vy) mod 256 and 8xF7 with (Vy - flag) mod 256, where flag is
the freshly written borrow flag; quirk-off 8xF6 ends with Vy >> 1 and
quirk-off 8xFE with (Vy << 1) mod 256 (y not F, so the flag write does not
disturb the operand). -/
theorem c9_flag_overwrite_amended :
    (∀ (rnd : Nat) (k : List Bool) (s s2 : Chip8) (yv vy vf : Nat),
      yv < 16 → yv ≠ 15 →
      s.waiting_for_key = none → s.v_registers.length = 16 →
      s.v_registers[yv]? = some vy → s.v_registers[15]? = some vf →
      s.memory[s.pc]? = some 0x8F →
      s.memory[s.pc + 1]? = some (yv * 16 + 4) →
      cycle rnd k s = some s2 →
      s2.v_registers[15]? = some ((vf + vy) % 256)) ∧
    (∀ (rnd : Nat) (k : List Bool) (s s2 : Chip8) (yv vy vf : Nat),
      yv < 16 → yv ≠ 15 →
      s.waiting_for_key = none → s.v_registers.length = 16 →
      s.v_registers[yv]? = some vy → s.v_registers[15]? = some vf →
      s.memory[s.pc]? = some 0x8F →
      s.memory[s.pc + 1]? = some (yv * 16 + 5) →
      cycle rnd k s = some s2 →
      s2.v_registers[15]? = some (wsub8 (if vf > vy then 0 else 1) vy)) ∧
    (∀ (rnd : Nat) (k : List Bool) (s s2 : Chip8) (yv vy vf : Nat),
      yv < 16 → yv ≠ 15 →
      s.waiting_for_key = none → s.alternative_shift_mode = false →
      s.v_registers.length = 16 →
      s.v_registers[yv]? = some vy → s.v_registers[15]? = some vf →
      s.memory[s.pc]? = some 0x8F →
      s.memory[s.pc + 1]? = some (yv * 16 + 6) →
      cycle rnd k s = some s2 →
      s2.v_registers[15]? = some (vy >>> 1)) ∧
    (∀ (rnd : Nat) (k : List Bool) (s s2 : Chip8) (yv vy vf : Nat),
      yv < 16 → yv ≠ 15 →
      s.waiting_for_key = none → s.v_registers.length = 16 →
      s.v_registers[yv]? = some vy → s.v_registers[15]? = some vf →
      s.memory[s.pc]? = some 0x8F →
      s.memory[s.pc + 1]? = some (yv * 16 + 7) →
      cycle rnd k s = some s2 →
      s2.v_registers[15]? = some (wsub8 vy (if vy > vf then 1 else 0))) ∧
    (∀ (rnd : Nat) (k : List Bool) (s s2 : Chip8) (yv vy vf : Nat),
      yv < 16 → yv ≠ 15 →
      s.waiting_for_key = none → s.alternative_shift_mode = false →
      s.v_registers.length = 16 →
      s.v_registers[yv]? = some vy → s.v_registers[15]? = some vf →
      s.memory[s.pc]? = some 0x8F →
      s.memory[s.pc + 1]? = some (yv * 16 + 14) →
      cycle rnd k s = some s2 →
      s2.v_registers[15]? = some ((vy <<< 1) % 256)) := by
  refine ⟨?_, ?_, ?_, ?_, ?_⟩
  · intro rnd k s s2 yv vy vf hyv hy15 hw hlen hvy hvf hfhi hflo hc
    have heval := cycle_8xy4 rnd k s 15 yv vf vy (by norm_num) hyv hw hlen hvf hvy
      (by simpa using hfhi) hflo
    rw [heval, Option.some.injEq] at hc
    subst hc
    show ((s.v_registers.set 15 (((vf + vy) >>> 8) &&& 1)).set 15
        ((vf + vy) % 256))[15]? = some ((vf + vy) % 256)
    exact List.getElem?_set_eq_of_lt _ (by rw [List.length_set]; omega)
  · intro rnd k s s2 yv vy vf hyv hy15 hw hlen hvy hvf hfhi hflo hc
    have hvx1 : (s.v_registers.set 15 (if vf > vy then 0 else 1))[15]? =
        some (if vf > vy then 0 else 1) :=
      List.getElem?_set_eq_of_lt _ (by omega)
    have hvy1 : (s.v_registers.set 15 (if vf > vy then 0 else 1))[yv]? = some vy := by
      rw [List.getElem?_set_ne (by omega)]
      exact hvy
    have heval := cycle_8xy5 rnd k s 15 yv vf vy (if vf > vy then 0 else 1) vy
      (by norm_num) hyv hw hlen hvf hvy hvx1 hvy1 (by simpa using hfhi) hflo
    rw [heval, Option.some.injEq] at hc
    subst hc
    show ((s.v_registers.set 15 (if vf > vy then 0 else 1)).set 15
        (wsub8 (if vf > vy then 0 else 1) vy))[15]? =
        some (wsub8 (if vf > vy then 0 else 1) vy)
    exact List.getElem?_set_eq_of_lt _ (by rw [List.length_set]; omega)
  · intro rnd k s s2 yv vy vf hyv hy15 hw hq hlen hvy hvf hfhi hflo hc
    have hother : (if s.alternative_shift_mode then 15 else yv) = yv := by
      simp [hq]
    have hvo1 : (s.v_registers.set 15 (vy &&& 1))[yv]? = some vy := by
      rw [List.getElem?_set_ne (by omega)]
      exact hvy
    have heval := cycle_8xy6 rnd k s 15 yv yv vy vy (by norm_num) hyv hw hlen
      hother hvy hvo1 (by simpa using hfhi) hflo
    rw [heval, Option.some.injEq] at hc
    subst hc
    show ((s.v_registers.set 15 (vy &&& 1)).set 15 (vy >>> 1))[15]? =
        some (vy >>> 1)
    exact List.getElem?_set_eq_of_lt _ (by rw [List.length_set]; omega)
  · intro rnd k s s2 yv vy vf hyv hy15 hw hlen hvy hvf hfhi hflo hc
    have hvx1 : (s.v_registers.set 15 (if vy > vf then 1 else 0))[15]? =
        some (if vy > vf then 1 else 0) :=
      List.getElem?_set_eq_of_lt _ (by omega)
    have hvy1 : (s.v_registers.set 15 (if vy > vf then 1 else 0))[yv]? = some vy := by
      rw [List.getElem?_set_ne (by omega)]
      exact hvy
    have heval := cycle_8xy7 rnd k s 15 yv vf vy (if vy > vf then 1 else 0) vy
      (by norm_num) hyv hw hlen hvf hvy hvx1 hvy1 (by simpa using hfhi) hflo
    rw [heval, Option.some.injEq] at hc
    subst hc
    show ((s.v_registers.set 15 (if vy > vf then 1 else 0)).set 15
        (wsub8 vy (if vy > vf then 1 else 0)))[15]? =
        some (wsub8 vy (if vy > vf then 1 else 0))
    exact List.getElem?_set_eq_of_lt _ (by rw [List.length_set]; omega)
  · intro rnd k s s2 yv vy vf hyv hy15 hw hq hlen hvy hvf hfhi hflo hc
    have hother : (if s.alternative_shift_mode then 15 else yv) = yv := by
      simp [hq]
    have hvo1 : (s.v_registers.set 15 (vy &&& 0x80))[yv]? = some vy := by
      rw [List.getElem?_set_ne (by omega)]
      exact hvy
    have heval := cycle_8xyE rnd k s 15 yv yv vy vy (by norm_num) hyv hw hlen
      hother hvy hvo1 (by simpa using hfhi) hflo
    rw [heval, Option.some.injEq] at hc
    subst hc
    show ((s.v_registers.set 15 (vy &&& 0x80)).set 15 ((vy <<< 1) % 256))[15]? =
        some ((vy <<< 1) % 256)
    exact List.getElem?_set_eq_of_lt _ (by rw [List.length_set]; omega)

/-- C9 witness: 8F04 with VF = 5, V0 = 3 leaves VF = (5 + 3) mod 256 = 8. -/
theorem c9_flag_overwrite_amended_witness :
    c9wState1.v_registers[15]? = some ((5 + 3) % 256) :=
  c9_flag_overwrite_amended.1 0 [] c9wState c9wState1 0 3 5 (by decide)
    (by decide) rfl rfl rfl rfl rfl rfl rfl

/-! ### The framebuffer 0/255 invariant (C10) -/

theorem mem_of_getElem?_some {α : Type} {l : List α} {i : Nat} {v : α}
    (h : l[i]? = some v) : v ∈ l := by
  obtain ⟨hlt, rfl⟩ := List.getElem?_eq_some.mp h
  exact List.getElem_mem hlt

theorem pixel_val_cases (row ix : Nat) :
    ((row >>> (7 - ix)) &&& 1) * 255 = 0 ∨ ((row >>> (7 - ix)) &&& 1) * 255 = 255 := by
  rw [and_1_eq]
  rcases Nat.mod_two_eq_zero_or_one (row >>> (7 - ix)) with h | h <;> rw [h] <;> simp

theorem xor_byte_cases {a b : Nat} (ha : a = 0 ∨ a = 255) (hb : b = 0 ∨ b = 255) :
    a ^^^ b = 0 ∨ a ^^^ b = 255 := by
  rcases ha with rfl | rfl <;> rcases hb with rfl | rfl <;> decide

theorem drawPixel_screenInv {x y iy row ix : Nat} {s s' : Chip8}
    (h : drawPixel x y iy row ix s = some s') (hs : ScreenInv s) : ScreenInv s' := by
  simp only [drawPixel, Option.bind_eq_bind', Option.some_bind', Option.bind_eq_some,
    Option.pure_def, Option.some.injEq] at h
  obtain ⟨vx, hvx, vy, hvy, prev, hprev, h⟩ := h
  have hprevm : prev ∈ s.screen := mem_of_getElem?_some hprev
  split at h
  · simp only [Option.bind_eq_bind', Option.some_bind', Option.bind_eq_some,
      Option.pure_def, Option.some.injEq] at h
    obtain ⟨vr, hvr, sc, hsc, h⟩ := h
    rw [writeArr_eq_some] at hsc
    obtain ⟨_, rfl⟩ := hsc
    rw [← h]
    intro v hv
    simp only at hv
    rcases List.mem_or_eq_of_mem_set hv with hv | rfl
    · exact hs v hv
    · exact xor_byte_cases (hs prev hprevm) (pixel_val_cases row ix)
  · simp only [Option.bind_eq_bind', Option.some_bind', Option.bind_eq_some,
      Option.pure_def, Option.some.injEq] at h
    obtain ⟨sc, hsc, h⟩ := h
    rw [writeArr_eq_some] at hsc
    obtain ⟨_, rfl⟩ := hsc
    rw [← h]
    intro v hv
    simp only at hv
    rcases List.mem_or_eq_of_mem_set hv with hv | rfl
    · exact hs v hv
    · exact xor_byte_cases (hs prev hprevm) (pixel_val_cases row ix)

theorem drawPixels_screenInv {x y iy row : Nat} :
    ∀ (m : Nat) {s s' : Chip8}, drawPixels x y iy row m s = some s' →
      ScreenInv s → ScreenInv s' := by
  intro m
  induction m with
  | zero =>
    intro s s' h hs
    simp only [drawPixels, Option.some.injEq] at h
    rw [← h]
    exact hs
  | succ n ih =>
    intro s s' h hs
    simp only [drawPixels, Option.bind_eq_bind', Option.bind_eq_some] at h
    obtain ⟨s1, h1, h2⟩ := h
    exact drawPixel_screenInv h2 (ih h1 hs)

theorem drawRows_screenInv {x y : Nat} :
    ∀ (m : Nat) {s s' : Chip8}, drawRows x y m s = some s' →
      ScreenInv s → ScreenInv s' := by
  intro m
  induction m with
  | zero =>
    intro s s' h hs
    simp only [drawRows, Option.some.injEq] at h
    rw [← h]
    exact hs
  | succ n ih =>
    intro s s' h hs
    simp only [drawRows, Option.bind_eq_bind', Option.bind_eq_some] at h
    obtain ⟨s1, h1, row, hrow, h2⟩ := h
    exact drawPixels_screenInv 8 h2 (ih h1 hs)

theorem drawSprite_screenInv {x y n : Nat} {s s' : Chip8}
    (h : drawSprite x y n s = some s') (hs : ScreenInv s) : ScreenInv s' := by
  simp only [drawSprite, Option.bind_eq_bind', Option.bind_eq_some] at h
  obtain ⟨vr, hvr, h⟩ := h
  exact drawRows_screenInv n h hs

theorem storeRegsAux_screen {x : Nat} :
    ∀ (m : Nat) {s s' : Chip8}, storeRegsAux x m s = some s' →
      s'.screen = s.screen := by
  intro m
  induction m with
  | zero =>
    intro s s' h
    simp only [storeRegsAux, Option.some.injEq] at h
    rw [← h]
  | succ n ih =>
    intro s s' h
    simp only [storeRegsAux, Option.bind_eq_bind', Option.bind_eq_some,
      Option.pure_def, Option.some.injEq] at h
    obtain ⟨s1, h1, v, hv, mem, hmem, h⟩ := h
    have hih := ih h1
    rw [← h]
    exact hih

theorem storeRegs_screen {x : Nat} {s s' : Chip8}
    (h : storeRegs x s = some s') : s'.screen = s.screen :=
  storeRegsAux_screen (x + 1) h

theorem loadRegsAux_screen {x : Nat} :
    ∀ (m : Nat) {s s' : Chip8}, loadRegsAux x m s = some s' →
      s'.screen = s.screen := by
  intro m
  induction m with
  | zero =>
    intro s s' h
    simp only [loadRegsAux, Option.some.injEq] at h
    rw [← h]
  | succ n ih =>
    intro s s' h
    simp only [loadRegsAux, Option.bind_eq_bind', Option.bind_eq_some,
      Option.pure_def, Option.some.injEq] at h
    obtain ⟨s1, h1, v, hv, vr, hvr, h⟩ := h
    have hih := ih h1
    rw [← h]
    exact hih

theorem loadRegs_screen {x : Nat} {s s' : Chip8}
    (h : loadRegs x s = some s') : s'.screen = s.screen :=
  loadRegsAux_screen (x + 1) h

theorem iteElim {c : Prop} [Decidable c] {α : Type} {a b r : α}
    (h : (if c then a else b) = r) : (c ∧ a = r) ∨ (¬ c ∧ b = r) := by
  by_cases hc : c
  · exact Or.inl ⟨hc, by rwa [if_pos hc] at h⟩
  · exact Or.inr ⟨hc, by rwa [if_neg hc] at h⟩

set_option maxHeartbeats 1000000 in
theorem execOp_screenInv {rnd : Nat} {k : List Bool} {s : Chip8}
    {instr hn ln x y il : Nat} {res : Chip8 × Nat}
    (h : execOp rnd k s instr hn ln x y il = some res)
    (hs : ScreenInv s) : ScreenInv res.1 := by
  unfold execOp at h
  rcases iteElim h with ⟨-, h⟩ | ⟨-, h⟩
  · simp only [op00E0, Option.some.injEq] at h
    subst h
    intro v hv
    simp only [List.mem_map] at hv
    obtain ⟨w, _, hw⟩ := hv
    exact Or.inl hw.symm
  rcases iteElim h with ⟨-, h⟩ | ⟨-, h⟩
  · simp only [op00EE, Option.bind_eq_bind'] at h
    rcases iteElim h with ⟨-, h⟩ | ⟨-, h⟩ <;>
      (obtain ⟨r, hr, h⟩ := Option.bind_eq_some.mp h
       injection h with h
       subst h
       intro v hv
       exact hs v hv)
  rcases iteElim h with ⟨-, h⟩ | ⟨-, h⟩
  · simp only [op1nnn, Option.bind_eq_bind'] at h
    injection h with h
    subst h
    intro v hv
    try simp only [apply_ite Chip8.screen, ite_self] at hv
    exact hs v hv
  rcases iteElim h with ⟨-, h⟩ | ⟨-, h⟩
  · simp only [op2nnn, Option.bind_eq_bind'] at h
    obtain ⟨_, _, h⟩ := Option.bind_eq_some.mp h
    injection h with h
    subst h
    intro v hv
    try simp only [apply_ite Chip8.screen, ite_self] at hv
    exact hs v hv
  rcases iteElim h with ⟨-, h⟩ | ⟨-, h⟩
  · simp only [op3xkk, Option.bind_eq_bind'] at h
    obtain ⟨_, _, h⟩ := Option.bind_eq_some.mp h
    injection h with h
    subst h
    intro v hv
    try simp only [apply_ite Chip8.screen, ite_self] at hv
    exact hs v hv
  rcases iteElim h with ⟨-, h⟩ | ⟨-, h⟩
  · simp only [op4xkk, Option.bind_eq_bind'] at h
    obtain ⟨_, _, h⟩ := Option.bind_eq_some.mp h
    injection h with h
    subst h
    intro v hv
    try simp only [apply_ite Chip8.screen, ite_self] at hv
    exact hs v hv
  rcases iteElim h with ⟨-, h⟩ | ⟨-, h⟩
  · simp only [op5xy0, Option.bind_eq_bind'] at h
    obtain ⟨_, _, h⟩ := Option.bind_eq_some.mp h
    obtain ⟨_, _, h⟩ := Option.bind_eq_some.mp h
    injection h with h
    subst h
    intro v hv
    try simp only [apply_ite Chip8.screen, ite_self] at hv
    exact hs v hv
  rcases iteElim h with ⟨-, h⟩ | ⟨-, h⟩
  · simp only [op6xkk, Option.bind_eq_bind'] at h
    obtain ⟨_, _, h⟩ := Option.bind_eq_some.mp h
    injection h with h
    subst h
    intro v hv
    try simp only [apply_ite Chip8.screen, ite_self] at hv
    exact hs v hv
  rcases iteElim h with ⟨-, h⟩ | ⟨-, h⟩
  · simp only [op7xkk, Option.bind_eq_bind'] at h
    obtain ⟨_, _, h⟩ := Option.bind_eq_some.mp h
    obtain ⟨_, _, h⟩ := Option.bind_eq_some.mp h
    injection h with h
    subst h
    intro v hv
    try simp only [apply_ite Chip8.screen, ite_self] at hv
    exact hs v hv
  rcases iteElim h with ⟨-, h⟩ | ⟨-, h⟩
  · simp only [op8xy0, Option.bind_eq_bind'] at h
    obtain ⟨_, _, h⟩ := Option.bind_eq_some.mp h
    obtain ⟨_, _, h⟩ := Option.bind_eq_some.mp h
    injection h with h
    subst h
    intro v hv
    try simp only [apply_ite Chip8.screen, ite_self] at hv
    exact hs v hv
  rcases iteElim h with ⟨-, h⟩ | ⟨-, h⟩
  · simp only [op8xy1, Option.bind_eq_bind'] at h
    obtain ⟨_, _, h⟩ := Option.bind_eq_some.mp h
    obtain ⟨_, _, h⟩ := Option.bind_eq_some.mp h
    obtain ⟨_, _, h⟩ := Option.bind_eq_some.mp h
    injection h with h
    subst h
    intro v hv
    try simp only [apply_ite Chip8.screen, ite_self] at hv
    exact hs v hv
  rcases iteElim h with ⟨-, h⟩ | ⟨-, h⟩
  · simp only [op8xy2, Option.bind_eq_bind'] at h
    obtain ⟨_, _, h⟩ := Option.bind_eq_some.mp h
    obtain ⟨_, _, h⟩ := Option.bind_eq_some.mp h
    obtain ⟨_, _, h⟩ := Option.bind_eq_some.mp h
    injection h with h
    subst h
    intro v hv
    try simp only [apply_ite Chip8.screen, ite_self] at hv
    exact hs v hv
  rcases iteElim h with ⟨-, h⟩ | ⟨-, h⟩
  · simp only [op8xy3, Option.bind_eq_bind'] at h
    obtain ⟨_, _, h⟩ := Option.bind_eq_some.mp h
    obtain ⟨_, _, h⟩ := Option.bind_eq_some.mp h
    obtain ⟨_, _, h⟩ := Option.bind_eq_some.mp h
    injection h with h
    subst h
    intro v hv
    try simp only [apply_ite Chip8.screen, ite_self] at hv
    exact hs v hv
  rcases iteElim h with ⟨-, h⟩ | ⟨-, h⟩
  · simp only [op8xy4, Option.bind_eq_bind'] at h
    obtain ⟨_, _, h⟩ := Option.bind_eq_some.mp h
    obtain ⟨_, _, h⟩ := Option.bind_eq_some.mp h
    obtain ⟨_, _, h⟩ := Option.bind_eq_some.mp h
    obtain ⟨_, _, h⟩ := Option.bind_eq_some.mp h
    injection h with h
    subst h
    intro v hv
    try simp only [apply_ite Chip8.screen, ite_self] at hv
    exact hs v hv
  rcases iteElim h with ⟨-, h⟩ | ⟨-, h⟩
  · simp only [op8xy5, Option.bind_eq_bind'] at h
    obtain ⟨_, _, h⟩ := Option.bind_eq_some.mp h
    obtain ⟨_, _, h⟩ := Option.bind_eq_some.mp h
    obtain ⟨_, _, h⟩ := Option.bind_eq_some.mp h
    obtain ⟨_, _, h⟩ := Option.bind_eq_some.mp h
    obtain ⟨_, _, h⟩ := Option.bind_eq_some.mp h
    obtain ⟨_, _, h⟩ := Option.bind_eq_some.mp h
    injection h with h
    subst h
    intro v hv
    try simp only [apply_ite Chip8.screen, ite_self] at hv
    exact hs v hv
  rcases iteElim h with ⟨-, h⟩ | ⟨-, h⟩
  · simp only [op8xy6, Option.bind_eq_bind'] at h
    obtain ⟨_, _, h⟩ := Option.bind_eq_some.mp h
    obtain ⟨_, _, h⟩ := Option.bind_eq_some.mp h
    obtain ⟨_, _, h⟩ := Option.bind_eq_some.mp h
    obtain ⟨_, _, h⟩ := Option.bind_eq_some.mp h
    injection h with h
    subst h
    intro v hv
    try simp only [apply_ite Chip8.screen, ite_self] at hv
    exact hs v hv
  rcases iteElim h with ⟨-, h⟩ | ⟨-, h⟩
  · simp only [op8xy7, Option.bind_eq_bind'] at h
    obtain ⟨_, _, h⟩ := Option.bind_eq_some.mp h
    obtain ⟨_, _, h⟩ := Option.bind_eq_some.mp h
    obtain ⟨_, _, h⟩ := Option.bind_eq_some.mp h
    obtain ⟨_, _, h⟩ := Option.bind_eq_some.mp h
    obtain ⟨_, _, h⟩ := Option.bind_eq_some.mp h
    obtain ⟨_, _, h⟩ := Option.bind_eq_some.mp h
    injection h with h
    subst h
    intro v hv
    try simp only [apply_ite Chip8.screen, ite_self] at hv
    exact hs v hv
  rcases iteElim h with ⟨-, h⟩ | ⟨-, h⟩
  · simp only [op8xyE, Option.bind_eq_bind'] at h
    obtain ⟨_, _, h⟩ := Option.bind_eq_some.mp h
    obtain ⟨_, _, h⟩ := Option.bind_eq_some.mp h
    obtain ⟨_, _, h⟩ := Option.bind_eq_some.mp h
    obtain ⟨_, _, h⟩ := Option.bind_eq_some.mp h
    injection h with h
    subst h
    intro v hv
    try simp only [apply_ite Chip8.screen, ite_self] at hv
    exact hs v hv
  rcases iteElim h with ⟨-, h⟩ | ⟨-, h⟩
  · simp only [op9xy0, Option.bind_eq_bind'] at h
    obtain ⟨_, _, h⟩ := Option.bind_eq_some.mp h
    obtain ⟨_, _, h⟩ := Option.bind_eq_some.mp h
    injection h with h
    subst h
    intro v hv
    try simp only [apply_ite Chip8.screen, ite_self] at hv
    exact hs v hv
  rcases iteElim h with ⟨-, h⟩ | ⟨-, h⟩
  · simp only [opAnnn, Option.bind_eq_bind'] at h
    injection h with h
    subst h
    intro v hv
    try simp only [apply_ite Chip8.screen, ite_self] at hv
    exact hs v hv
  rcases iteElim h with ⟨-, h⟩ | ⟨-, h⟩
  · simp only [opBnnn, Option.bind_eq_bind'] at h
    obtain ⟨_, _, h⟩ := Option.bind_eq_some.mp h
    injection h with h
    subst h
    intro v hv
    try simp only [apply_ite Chip8.screen, ite_self] at hv
    exact hs v hv
  rcases iteElim h with ⟨-, h⟩ | ⟨-, h⟩
  · simp only [opCxkk, Option.bind_eq_bind'] at h
    obtain ⟨_, _, h⟩ := Option.bind_eq_some.mp h
    injection h with h
    subst h
    intro v hv
    try simp only [apply_ite Chip8.screen, ite_self] at hv
    exact hs v hv
  rcases iteElim h with ⟨-, h⟩ | ⟨-, h⟩
  · simp only [opDxyn, Option.bind_eq_bind'] at h
    obtain ⟨s1, hd, h⟩ := Option.bind_eq_some.mp h
    injection h with h
    subst h
    show ScreenInv s1
    exact drawSprite_screenInv hd hs
  rcases iteElim h with ⟨-, h⟩ | ⟨-, h⟩
  · simp only [opEx9E, Option.bind_eq_bind'] at h
    obtain ⟨_, _, h⟩ := Option.bind_eq_some.mp h
    obtain ⟨_, _, h⟩ := Option.bind_eq_some.mp h
    injection h with h
    subst h
    intro v hv
    try simp only [apply_ite Chip8.screen, ite_self] at hv
    exact hs v hv
  rcases iteElim h with ⟨-, h⟩ | ⟨-, h⟩
  · simp only [opExA1, Option.bind_eq_bind'] at h
    obtain ⟨_, _, h⟩ := Option.bind_eq_some.mp h
    obtain ⟨_, _, h⟩ := Option.bind_eq_some.mp h
    injection h with h
    subst h
    intro v hv
    try simp only [apply_ite Chip8.screen, ite_self] at hv
    exact hs v hv
  rcases iteElim h with ⟨-, h⟩ | ⟨-, h⟩
  · simp only [opFx07, Option.bind_eq_bind'] at h
    obtain ⟨_, _, h⟩ := Option.bind_eq_some.mp h
    injection h with h
    subst h
    intro v hv
    try simp only [apply_ite Chip8.screen, ite_self] at hv
    exact hs v hv
  rcases iteElim h with ⟨-, h⟩ | ⟨-, h⟩
  · simp only [opFx0A, Option.bind_eq_bind'] at h
    injection h with h
    subst h
    intro v hv
    try simp only [apply_ite Chip8.screen, ite_self] at hv
    exact hs v hv
  rcases iteElim h with ⟨-, h⟩ | ⟨-, h⟩
  · simp only [opFx15, Option.bind_eq_bind'] at h
    obtain ⟨_, _, h⟩ := Option.bind_eq_some.mp h
    injection h with h
    subst h
    intro v hv
    try simp only [apply_ite Chip8.screen, ite_self] at hv
    exact hs v hv
  rcases iteElim h with ⟨-, h⟩ | ⟨-, h⟩
  · simp only [opFx18, Option.bind_eq_bind'] at h
    obtain ⟨_, _, h⟩ := Option.bind_eq_some.mp h
    injection h with h
    subst h
    intro v hv
    try simp only [apply_ite Chip8.screen, ite_self] at hv
    exact hs v hv
  rcases iteElim h with ⟨-, h⟩ | ⟨-, h⟩
  · simp only [opFx1E, Option.bind_eq_bind'] at h
    obtain ⟨_, _, h⟩ := Option.bind_eq_some.mp h
    injection h with h
    subst h
    intro v hv
    try simp only [apply_ite Chip8.screen, ite_self] at hv
    exact hs v hv
  rcases iteElim h with ⟨-, h⟩ | ⟨-, h⟩
  · simp only [opFx29, Option.bind_eq_bind'] at h
    obtain ⟨_, _, h⟩ := Option.bind_eq_some.mp h
    injection h with h
    subst h
    intro v hv
    try simp only [apply_ite Chip8.screen, ite_self] at hv
    exact hs v hv
  rcases iteElim h with ⟨-, h⟩ | ⟨-, h⟩
  · simp only [opFx33, Option.bind_eq_bind'] at h
    obtain ⟨_, _, h⟩ := Option.bind_eq_some.mp h
    obtain ⟨_, _, h⟩ := Option.bind_eq_some.mp h
    obtain ⟨_, _, h⟩ := Option.bind_eq_some.mp h
    obtain ⟨_, _, h⟩ := Option.bind_eq_some.mp h
    injection h with h
    subst h
    intro v hv
    try simp only [apply_ite Chip8.screen, ite_self] at hv
    exact hs v hv
  rcases iteElim h with ⟨-, h⟩ | ⟨-, h⟩
  · simp only [opFx55, Option.bind_eq_bind'] at h
    obtain ⟨s1, hst, h⟩ := Option.bind_eq_some.mp h
    injection h with h
    subst h
    show ScreenInv s1
    intro v hv
    rw [storeRegs_screen hst] at hv
    exact hs v hv
  rcases iteElim h with ⟨-, h⟩ | ⟨-, h⟩
  · simp only [opFx65, Option.bind_eq_bind'] at h
    obtain ⟨s1, hld, h⟩ := Option.bind_eq_some.mp h
    injection h with h
    subst h
    show ScreenInv s1
    intro v hv
    rw [loadRegs_screen hld] at hv
    exact hs v hv
  injection h with h
  subst h
  exact hs

theorem cycle_screenInv {rnd : Nat} {k : List Bool} {s s' : Chip8}
    (h : cycle rnd k s = some s') (hs : ScreenInv s) : ScreenInv s' := by
  unfold cycle at h
  cases hwk : s.waiting_for_key with
  | some reg =>
    rw [hwk] at h
    cases hf : List.findIdx? (fun b => b) k with
    | some kk =>
      rw [hf] at h
      simp only [Option.bind_eq_bind', Option.bind_eq_some, Option.some.injEq] at h
      obtain ⟨vr, hvr, h⟩ := h
      subst h
      intro v hv
      exact hs v hv
    | none =>
      rw [hf] at h
      simp only [Option.some.injEq] at h
      rw [← h]
      exact hs
  | none =>
    rw [hwk] at h
    simp only [Option.bind_eq_bind', Option.bind_eq_some, Option.some.injEq] at h
    obtain ⟨il, hil, ih2, hih, res, hres, h⟩ := h
    subst h
    intro v hv
    exact execOp_screenInv hres hs v hv

theorem runCycles_screenInv {rnd : Nat → Nat} {k : List Bool} :
    ∀ (m : Nat) {s s' : Chip8}, runCycles rnd k m s = some s' →
      ScreenInv s → ScreenInv s' := by
  intro m
  induction m with
  | zero =>
    intro s s' h hs
    simp only [runCycles, Option.some.injEq] at h
    rw [← h]
    exact hs
  | succ n ih =>
    intro s s' h hs
    simp only [runCycles, Option.bind_eq_bind', Option.bind_eq_some] at h
    obtain ⟨s1, h1, h2⟩ := h
    exact cycle_screenInv h2 (ih h1 hs)

/-- C10: every framebuffer byte is 0 or 255: established by construction
and preserved by every cycle and every frame advance (clear fills with 0;
the draw XOR only ever combines bytes that are already 0 or 255 with a
sprite pixel that is 0 or 255; no other operation writes the screen). -/
theorem c10_screen_invariant :
    (∀ (rom : List Nat) (s : Chip8), Chip8.new rom = some s → ScreenInv s) ∧
    (∀ (rnd : Nat) (k : List Bool) (s s' : Chip8),
      ScreenInv s → cycle rnd k s = some s' → ScreenInv s') ∧
    (∀ (rnd : Nat → Nat) (k : List Bool) (s s' : Chip8),
      ScreenInv s → frame rnd k s = some s' → ScreenInv s') := by
  refine ⟨?_, ?_, ?_⟩
  · intro rom s h
    simp only [Chip8.new, Option.bind_eq_bind', Option.bind_eq_some,
      Option.some.injEq] at h
    obtain ⟨m1, hm1, m2, hm2, h⟩ := h
    rw [← h]
    intro v hv
    simp only at hv
    exact Or.inl (List.eq_of_mem_replicate hv)
  · intro rnd k s s' hs h
    exact cycle_screenInv h hs
  · intro rnd k s s' hs h
    unfold frame at h
    rw [Option.map_eq_some'] at h
    obtain ⟨t, ht, h⟩ := h
    rw [← h]
    intro v hv
    exact runCycles_screenInv s.cycles_per_frame ht hs v hv

/-- C10 witness: the invariant survives a concrete no-op cycle and a
concrete zero-cycle frame on a machine whose screen is [0, 255]. -/
theorem c10_screen_invariant_witness :
    ScreenInv c10State2 ∧ ScreenInv (tickTimers c10FState) :=
  ⟨c10_screen_invariant.2.1 0 [] c10State c10State2
      (by show ∀ v ∈ ([0, 255] : List Nat), v = 0 ∨ v = 255; decide) rfl,
   c10_screen_invariant.2.2 (fun _ => 0) [] c10FState (tickTimers c10FState)
      (by show ∀ v ∈ ([0, 255] : List Nat), v = 0 ∨ v = 255; decide) rfl⟩

theorem dpos_lt (vx vy iy ix : Nat) : dpos vx vy iy ix < 2048 := by
  unfold dpos; omega

theorem dpos_inj {vx vy iy1 ix1 iy2 ix2 : Nat} (h1 : iy1 < 32) (h2 : iy2 < 32)
    (h3 : ix1 < 8) (h4 : ix2 < 8)
    (he : dpos vx vy iy1 ix1 = dpos vx vy iy2 ix2) : iy1 = iy2 ∧ ix1 = ix2 := by
  unfold dpos at he; constructor <;> omega

theorem dpix_len (vx vy iy row ix : Nat) (sf : List Nat × Nat) :
    (dpix vx vy iy row ix sf).1.length = sf.1.length := by
  unfold dpix; simp [List.length_set]

theorem dpixs_len (vx vy iy row : Nat) (m : Nat) (sf : List Nat × Nat) :
    (dpixs vx vy iy row m sf).1.length = sf.1.length := by
  induction m with
  | zero => rfl
  | succ m ih =>
      show (dpix vx vy iy row m (dpixs vx vy iy row m sf)).1.length = sf.1.length
      rw [dpix_len, ih]

theorem drows_len (vx vy : Nat) (rowf : Nat → Nat) (m : Nat) (sf : List Nat × Nat) :
    (drows vx vy rowf m sf).1.length = sf.1.length := by
  induction m with
  | zero => rfl
  | succ m ih =>
      show (dpixs vx vy m (rowf m) 8 (drows vx vy rowf m sf)).1.length = sf.1.length
      rw [dpixs_len, ih]

theorem drawPixel_dpix {s : Chip8} {x y vx vy iy row ix f : Nat} {scr : List Nat}
    (hreg : s.v_registers.length = 16) (hx15 : x ≠ 15) (hy15 : y ≠ 15)
    (hvx : s.v_registers[x]? = some vx) (hvy : s.v_registers[y]? = some vy)
    (hlen : scr.length = 2048) :
    drawPixel x y iy row ix
      { s with
        screen := scr,
        v_registers := s.v_registers.set 15 f } =
    some { s with
           screen := (dpix vx vy iy row ix (scr, f)).1,
           v_registers := s.v_registers.set 15 (dpix vx vy iy row ix (scr, f)).2 } := by
  obtain ⟨pv, hpv⟩ : ∃ v, scr[dpos vx vy iy ix]? = some v :=
    ⟨_, List.getElem?_eq_getElem (by rw [hlen]; exact dpos_lt vx vy iy ix)⟩
  have hrx : (s.v_registers.set 15 f)[x]? = some vx := by
    rw [List.getElem?_set_ne (Ne.symm hx15), hvx]
  have hry : (s.v_registers.set 15 f)[y]? = some vy := by
    rw [List.getElem?_set_ne (Ne.symm hy15), hvy]
  have hpv' := hpv
  unfold dpos at hpv'
  by_cases hc : pv = 255 ∧ pvOf row ix = 255
  · have hc' := hc
    simp only [pvOf] at hc'
    simp only [drawPixel, Option.bind_eq_bind', hrx, hry, Option.some_bind', hpv',
      if_pos hc', writeArr_some (by rw [List.length_set, hreg]; omega : (15:Nat) < (s.v_registers.set 15 f).length),
      Option.pure_def]
    rw [writeArr_some (by rw [hlen]; omega)]
    simp only [Option.some_bind', dpix, hpv, Option.getD_some, if_pos hc, List.set_set]
    simp only [dpos, pvOf]
  · have hc' : ¬ (pv = 255 ∧ ((row >>> (7 - ix)) &&& 1) * 255 = 255) := by
      simpa only [pvOf] using hc
    simp only [drawPixel, Option.bind_eq_bind', hrx, hry, Option.some_bind', hpv',
      if_neg hc', Option.pure_def]
    rw [writeArr_some (by rw [hlen]; omega)]
    simp only [Option.some_bind', dpix, hpv, Option.getD_some, if_neg hc]
    simp only [dpos, pvOf]

theorem drawPixels_dpixs {s : Chip8} {x y vx vy iy row f : Nat} {scr : List Nat}
    (hreg : s.v_registers.length = 16) (hx15 : x ≠ 15) (hy15 : y ≠ 15)
    (hvx : s.v_registers[x]? = some vx) (hvy : s.v_registers[y]? = some vy)
    (hlen : scr.length = 2048) (m : Nat) :
    drawPixels x y iy row m
      { s with
        screen := scr,
        v_registers := s.v_registers.set 15 f } =
    some { s with
           screen := (dpixs vx vy iy row m (scr, f)).1,
           v_registers := s.v_registers.set 15 (dpixs vx vy iy row m (scr, f)).2 } := by
  induction m with
  | zero => rfl
  | succ m ih =>
      rw [drawPixels]
      simp only [Option.bind_eq_bind', ih, Option.some_bind']
      rw [drawPixel_dpix hreg hx15 hy15 hvx hvy (by rw [dpixs_len, hlen])]
      rfl

theorem drawRows_drows {s : Chip8} {x y vx vy f n : Nat} {scr : List Nat}
    {rowf : Nat → Nat}
    (hreg : s.v_registers.length = 16) (hx15 : x ≠ 15) (hy15 : y ≠ 15)
    (hvx : s.v_registers[x]? = some vx) (hvy : s.v_registers[y]? = some vy)
    (hlen : scr.length = 2048)
    (hrows : ∀ iy, iy < n → s.memory[s.i_register + iy]? = some (rowf iy))
    (m : Nat) (hm : m ≤ n) :
    drawRows x y m
      { s with
        screen := scr,
        v_registers := s.v_registers.set 15 f } =
    some { s with
           screen := (drows vx vy rowf m (scr, f)).1,
           v_registers := s.v_registers.set 15 (drows vx vy rowf m (scr, f)).2 } := by
  induction m with
  | zero => rfl
  | succ m ih =>
      rw [drawRows]
      simp only [Option.bind_eq_bind', ih (by omega), Option.some_bind']
      rw [show ({ s with
            screen := (drows vx vy rowf m (scr, f)).1,
            v_registers := s.v_registers.set 15 (drows vx vy rowf m (scr, f)).2 } : Chip8).memory
          = s.memory from rfl]
      rw [show ({ s with
            screen := (drows vx vy rowf m (scr, f)).1,
            v_registers := s.v_registers.set 15 (drows vx vy rowf m (scr, f)).2 } : Chip8).i_register
          = s.i_register from rfl]
      rw [hrows m (by omega)]
      simp only [Option.some_bind']
      rw [drawPixels_dpixs hreg hx15 hy15 hvx hvy (by rw [drows_len, hlen])]
      rfl

theorem drawSprite_drows {s : Chip8} {x y vx vy n : Nat} {rowf : Nat → Nat}
    (hreg : s.v_registers.length = 16) (hx15 : x ≠ 15) (hy15 : y ≠ 15)
    (hvx : s.v_registers[x]? = some vx) (hvy : s.v_registers[y]? = some vy)
    (hscr : s.screen.length = 2048)
    (hrows : ∀ iy, iy < n → s.memory[s.i_register + iy]? = some (rowf iy)) :
    drawSprite x y n s =
    some { s with
           screen := (drows vx vy rowf n (s.screen, 0)).1,
           v_registers := s.v_registers.set 15 (drows vx vy rowf n (s.screen, 0)).2 } := by
  unfold drawSprite
  rw [writeArr_some (by rw [hreg]; omega)]
  simp only [Option.bind_eq_bind', Option.some_bind']
  exact drawRows_drows hreg hx15 hy15 hvx hvy hscr hrows n (Nat.le_refl n)

theorem dpos_inj_ix {vx vy iy ix1 ix2 : Nat} (h3 : ix1 < 8) (h4 : ix2 < 8)
    (he : dpos vx vy iy ix1 = dpos vx vy iy ix2) : ix1 = ix2 := by
  unfold dpos at he; omega

theorem dpix_get_ne {vx vy iy row ix p : Nat} (sf : List Nat × Nat)
    (h : dpos vx vy iy ix ≠ p) : (dpix vx vy iy row ix sf).1[p]? = sf.1[p]? := by
  simp only [dpix]
  exact List.getElem?_set_ne h

theorem dpixs_get_ne {vx vy iy row p m : Nat} (sf : List Nat × Nat)
    (h : ∀ ix, ix < m → dpos vx vy iy ix ≠ p) :
    (dpixs vx vy iy row m sf).1[p]? = sf.1[p]? := by
  induction m with
  | zero => rfl
  | succ m ih =>
      show (dpix vx vy iy row m (dpixs vx vy iy row m sf)).1[p]? = sf.1[p]?
      rw [dpix_get_ne _ (h m (by omega))]
      exact ih (fun ix hx => h ix (by omega))

theorem drows_get_ne {vx vy p m : Nat} {rowf : Nat → Nat} (sf : List Nat × Nat)
    (h : ∀ iy ix, iy < m → ix < 8 → dpos vx vy iy ix ≠ p) :
    (drows vx vy rowf m sf).1[p]? = sf.1[p]? := by
  induction m with
  | zero => rfl
  | succ m ih =>
      show (dpixs vx vy m (rowf m) 8 (drows vx vy rowf m sf)).1[p]? = sf.1[p]?
      rw [dpixs_get_ne _ (fun ix hx => h m ix (by omega) hx)]
      exact ih (fun iy ix hy hx => h iy ix (by omega) hx)

theorem dpix_get_eq {vx vy iy row ix : Nat} (sf : List Nat × Nat)
    (hp : dpos vx vy iy ix < sf.1.length) :
    (dpix vx vy iy row ix sf).1[dpos vx vy iy ix]? =
      some ((sf.1[dpos vx vy iy ix]?).getD 0 ^^^ pvOf row ix) := by
  simp only [dpix]
  exact List.getElem?_set_eq_of_lt _ hp

theorem dpixs_get_hit {vx vy iy row m ix0 : Nat} (sf : List Nat × Nat)
    (hix : ix0 < m) (hm : m ≤ 8) (hp : dpos vx vy iy ix0 < sf.1.length) :
    (dpixs vx vy iy row m sf).1[dpos vx vy iy ix0]? =
      some ((sf.1[dpos vx vy iy ix0]?).getD 0 ^^^ pvOf row ix0) := by
  induction m with
  | zero => omega
  | succ m ih =>
      show (dpix vx vy iy row m (dpixs vx vy iy row m sf)).1[dpos vx vy iy ix0]? = _
      by_cases hx : ix0 = m
      · subst hx
        have hne : (dpixs vx vy iy row ix0 sf).1[dpos vx vy iy ix0]? =
            sf.1[dpos vx vy iy ix0]? :=
          dpixs_get_ne _ (fun ix hxm he =>
            absurd (dpos_inj_ix (by omega) (by omega) he) (by omega))
        rw [dpix_get_eq _ (by rw [dpixs_len]; exact hp), hne]
      · rw [dpix_get_ne _ (fun he =>
          absurd (dpos_inj_ix (by omega) (by omega) he) (by omega))]
        exact ih (by omega) (by omega)

theorem drows_get_hit {vx vy m iy0 ix0 : Nat} {rowf : Nat → Nat} (sf : List Nat × Nat)
    (hiy : iy0 < m) (hm : m ≤ 32) (hix : ix0 < 8)
    (hp : dpos vx vy iy0 ix0 < sf.1.length) :
    (drows vx vy rowf m sf).1[dpos vx vy iy0 ix0]? =
      some ((sf.1[dpos vx vy iy0 ix0]?).getD 0 ^^^ pvOf (rowf iy0) ix0) := by
  induction m with
  | zero => omega
  | succ m ih =>
      show (dpixs vx vy m (rowf m) 8 (drows vx vy rowf m sf)).1[dpos vx vy iy0 ix0]? = _
      by_cases hy : iy0 = m
      · subst hy
        have hne : (drows vx vy rowf iy0 sf).1[dpos vx vy iy0 ix0]? =
            sf.1[dpos vx vy iy0 ix0]? :=
          drows_get_ne _ (fun iy ix hym hxm he =>
            absurd ((dpos_inj (by omega) (by omega) hxm hix he).1) (by omega))
        rw [dpixs_get_hit _ hix (by omega) (by rw [drows_len]; exact hp), hne]
      · rw [dpixs_get_ne _ (fun ix hxm he =>
          absurd ((dpos_inj (by omega) (by omega) hxm hix he).1) (by omega))]
        exact ih (by omega) (by omega)

theorem dpix_flag_keep {vx vy iy row ix : Nat} (sf : List Nat × Nat)
    (h : ¬ ((sf.1[dpos vx vy iy ix]?).getD 0 = 255 ∧ pvOf row ix = 255)) :
    (dpix vx vy iy row ix sf).2 = sf.2 := by
  simp only [dpix]
  rw [if_neg h]

theorem dpix_flag_one {vx vy iy row ix : Nat} (sf : List Nat × Nat)
    (h : sf.2 = 1) : (dpix vx vy iy row ix sf).2 = 1 := by
  simp only [dpix, h, ite_self]

theorem dpixs_flag_one {vx vy iy row m : Nat} (sf : List Nat × Nat)
    (h : sf.2 = 1) : (dpixs vx vy iy row m sf).2 = 1 := by
  induction m with
  | zero => exact h
  | succ m ih => exact dpix_flag_one _ ih

theorem drows_flag_one {vx vy m : Nat} {rowf : Nat → Nat} (sf : List Nat × Nat)
    (h : sf.2 = 1) : (drows vx vy rowf m sf).2 = 1 := by
  induction m with
  | zero => exact h
  | succ m ih => exact dpixs_flag_one _ ih

theorem dpixs_flag_hit {vx vy iy row m ix0 : Nat} (sf : List Nat × Nat)
    (hix : ix0 < m) (hm : m ≤ 8)
    (hcol : (sf.1[dpos vx vy iy ix0]?).getD 0 = 255 ∧ pvOf row ix0 = 255) :
    (dpixs vx vy iy row m sf).2 = 1 := by
  induction m with
  | zero => omega
  | succ m ih =>
      show (dpix vx vy iy row m (dpixs vx vy iy row m sf)).2 = 1
      by_cases hx : ix0 = m
      · subst hx
        have hne : (dpixs vx vy iy row ix0 sf).1[dpos vx vy iy ix0]? =
            sf.1[dpos vx vy iy ix0]? :=
          dpixs_get_ne _ (fun ix hxm he =>
            absurd (dpos_inj_ix (by omega) (by omega) he) (by omega))
        simp only [dpix, hne]
        rw [if_pos hcol]
      · exact dpix_flag_one _ (ih (by omega) (by omega))

theorem drows_flag_hit {vx vy m iy0 ix0 : Nat} {rowf : Nat → Nat} (sf : List Nat × Nat)
    (hiy : iy0 < m) (hm : m ≤ 32) (hix : ix0 < 8)
    (hcol : (sf.1[dpos vx vy iy0 ix0]?).getD 0 = 255 ∧ pvOf (rowf iy0) ix0 = 255) :
    (drows vx vy rowf m sf).2 = 1 := by
  induction m with
  | zero => omega
  | succ m ih =>
      show (dpixs vx vy m (rowf m) 8 (drows vx vy rowf m sf)).2 = 1
      by_cases hy : iy0 = m
      · subst hy
        have hne : (drows vx vy rowf iy0 sf).1[dpos vx vy iy0 ix0]? =
            sf.1[dpos vx vy iy0 ix0]? :=
          drows_get_ne _ (fun iy ix hym hxm he =>
            absurd ((dpos_inj (by omega) (by omega) hxm hix he).1) (by omega))
        exact dpixs_flag_hit _ hix (by omega) (by rw [hne]; exact hcol)
      · exact dpixs_flag_one _ (ih (by omega) (by omega))

theorem dpixs_flag_keep {vx vy iy row m : Nat} (sf : List Nat × Nat) (hm : m ≤ 8)
    (h : ∀ ix, ix < m → ¬ ((sf.1[dpos vx vy iy ix]?).getD 0 = 255 ∧ pvOf row ix = 255)) :
    (dpixs vx vy iy row m sf).2 = sf.2 := by
  induction m with
  | zero => rfl
  | succ m ih =>
      show (dpix vx vy iy row m (dpixs vx vy iy row m sf)).2 = sf.2
      have hne : (dpixs vx vy iy row m sf).1[dpos vx vy iy m]? =
          sf.1[dpos vx vy iy m]? :=
        dpixs_get_ne _ (fun ix hxm he =>
          absurd (dpos_inj_ix (by omega) (by omega) he) (by omega))
      rw [dpix_flag_keep _ (by rw [hne]; exact h m (by omega))]
      exact ih (by omega) (fun ix hx => h ix (by omega))

theorem drows_flag_keep {vx vy m : Nat} {rowf : Nat → Nat} (sf : List Nat × Nat)
    (hm : m ≤ 32)
    (h : ∀ iy ix, iy < m → ix < 8 →
      ¬ ((sf.1[dpos vx vy iy ix]?).getD 0 = 255 ∧ pvOf (rowf iy) ix = 255)) :
    (drows vx vy rowf m sf).2 = sf.2 := by
  induction m with
  | zero => rfl
  | succ m ih =>
      show (dpixs vx vy m (rowf m) 8 (drows vx vy rowf m sf)).2 = sf.2
      have hkeep : ∀ ix, ix < 8 →
          ¬ (((drows vx vy rowf m sf).1[dpos vx vy m ix]?).getD 0 = 255 ∧
             pvOf (rowf m) ix = 255) := by
        intro ix hx
        have hne : (drows vx vy rowf m sf).1[dpos vx vy m ix]? =
            sf.1[dpos vx vy m ix]? :=
          drows_get_ne _ (fun iy jx hym hxm he =>
            absurd ((dpos_inj (by omega) (by omega) hxm hx he).1) (by omega))
        rw [hne]
        exact h m ix (by omega) hx
      rw [dpixs_flag_keep _ (by omega) hkeep]
      exact ih (by omega) (fun iy ix hy hx => h iy ix (by omega) hx)

attribute [irreducible] dpix dpixs drows

/-- C6 (amended): if every pixel under a set sprite bit starts unlit and the
sprite has at least one set bit, drawing the same Dxyn sprite twice in
succession leaves every such pixel unlit and the second draw sets VF to 1.
The register hypotheses exclude VF itself as a coordinate register, since the
draw writes VF mid-loop and the code re-reads the coordinate registers at
every pixel. -/
theorem c6_draw_twice_amended {s : Chip8} {x y vx vy n : Nat} {rowf : Nat → Nat}
    (hreg : s.v_registers.length = 16) (hx15 : x ≠ 15) (hy15 : y ≠ 15)
    (hvx : s.v_registers[x]? = some vx) (hvy : s.v_registers[y]? = some vy)
    (hscr : s.screen.length = 2048) (hn : n ≤ 32)
    (hrows : ∀ iy, iy < n → s.memory[s.i_register + iy]? = some (rowf iy))
    (hclean : ∀ iy ix, iy < n → ix < 8 → pvOf (rowf iy) ix = 255 →
      s.screen[dpos vx vy iy ix]? = some 0)
    (hbit : ∃ iy ix, iy < n ∧ ix < 8 ∧ pvOf (rowf iy) ix = 255) :
    ∃ s1 s2, drawSprite x y n s = some s1 ∧ drawSprite x y n s1 = some s2 ∧
      (∀ iy ix, iy < n → ix < 8 → pvOf (rowf iy) ix = 255 →
        s2.screen[dpos vx vy iy ix]? = some 0) ∧
      s2.v_registers[15]? = some 1 := by
  have hd1 := @drawSprite_drows s x y vx vy n rowf
    hreg hx15 hy15 hvx hvy hscr hrows
  have hd2 := @drawSprite_drows
    { s with
      screen := (drows vx vy rowf n (s.screen, 0)).1,
      v_registers := s.v_registers.set 15 (drows vx vy rowf n (s.screen, 0)).2 }
    x y vx vy n rowf
    (by show (s.v_registers.set 15 _).length = 16; rw [List.length_set, hreg])
    hx15 hy15
    (by show (s.v_registers.set 15 _)[x]? = some vx
        rw [List.getElem?_set_ne (Ne.symm hx15)]; exact hvx)
    (by show (s.v_registers.set 15 _)[y]? = some vy
        rw [List.getElem?_set_ne (Ne.symm hy15)]; exact hvy)
    (by show (drows vx vy rowf n (s.screen, 0)).1.length = 2048
        rw [drows_len]; exact hscr)
    (by intro iy hiy; exact hrows iy hiy)
  have hfirst : ∀ iy ix, iy < n → ix < 8 → pvOf (rowf iy) ix = 255 →
      (drows vx vy rowf n (s.screen, 0)).1[dpos vx vy iy ix]? = some 255 := by
    intro iy ix hy hx hpv
    rw [drows_get_hit _ hy hn hx (by rw [hscr]; exact dpos_lt vx vy iy ix),
      hclean iy ix hy hx hpv, hpv]
    simp only [Option.getD_some, Nat.zero_xor]
  refine ⟨_, _, hd1, hd2, ?_, ?_⟩
  · intro iy ix hy hx hpv
    show (drows vx vy rowf n ((drows vx vy rowf n (s.screen, 0)).1, 0)).1[dpos vx vy iy ix]? = some 0
    rw [drows_get_hit _ hy hn hx
        (by rw [drows_len, hscr]; exact dpos_lt vx vy iy ix),
      hfirst iy ix hy hx hpv, hpv]
    simp only [Option.getD_some, Nat.xor_self]
  · show ((s.v_registers.set 15 _).set 15
      (drows vx vy rowf n ((drows vx vy rowf n (s.screen, 0)).1, 0)).2)[15]? = some 1
    rw [List.set_set,
      List.getElem?_set_eq_of_lt _ (by rw [hreg]; omega)]
    obtain ⟨iy0, ix0, hy0, hx0, hpv0⟩ := hbit
    rw [drows_flag_hit _ hy0 hn hx0
      (by rw [hfirst iy0 ix0 hy0 hx0 hpv0]; exact ⟨rfl, hpv0⟩)]

/-- Abstract core of the C6 counterexample: a one-row sprite 0x80 drawn twice
at a position whose target pixel is already lit leaves that pixel lit and the
second draw reports no collision. -/
theorem c6_counterexample_core {s : Chip8} {x y vx vy : Nat}
    (hreg : s.v_registers.length = 16) (hx15 : x ≠ 15) (hy15 : y ≠ 15)
    (hvx : s.v_registers[x]? = some vx) (hvy : s.v_registers[y]? = some vy)
    (hscr : s.screen.length = 2048)
    (hrow : s.memory[s.i_register]? = some 0x80)
    (hlit : s.screen[dpos vx vy 0 0]? = some 255) :
    ∃ s1 s2, drawSprite x y 1 s = some s1 ∧ drawSprite x y 1 s1 = some s2 ∧
      s2.screen[dpos vx vy 0 0]? = some 255 ∧ s2.v_registers[15]? = some 0 := by
  have hrows : ∀ iy, iy < 1 →
      s.memory[s.i_register + iy]? = some ((fun _ => 0x80) iy) := by
    intro iy hiy
    have h0 : iy = 0 := by omega
    subst h0
    rw [Nat.add_zero]
    exact hrow
  have hd1 := @drawSprite_drows s x y vx vy 1 (fun _ => 0x80)
    hreg hx15 hy15 hvx hvy hscr hrows
  have hd2 := @drawSprite_drows
    { s with
      screen := (drows vx vy (fun _ => 0x80) 1 (s.screen, 0)).1,
      v_registers := s.v_registers.set 15
        (drows vx vy (fun _ => 0x80) 1 (s.screen, 0)).2 }
    x y vx vy 1 (fun _ => 0x80)
    (by show (s.v_registers.set 15 _).length = 16; rw [List.length_set, hreg])
    hx15 hy15
    (by show (s.v_registers.set 15 _)[x]? = some vx
        rw [List.getElem?_set_ne (Ne.symm hx15)]; exact hvx)
    (by show (s.v_registers.set 15 _)[y]? = some vy
        rw [List.getElem?_set_ne (Ne.symm hy15)]; exact hvy)
    (by show (drows vx vy (fun _ => 0x80) 1 (s.screen, 0)).1.length = 2048
        rw [drows_len]; exact hscr)
    (by intro iy hiy; exact hrows iy hiy)
  have hpv0 : pvOf 0x80 0 = 255 := by decide
  have hfirst : (drows vx vy (fun _ => 0x80) 1 (s.screen, 0)).1[dpos vx vy 0 0]? =
      some 0 := by
    rw [drows_get_hit _ (by omega) (by omega) (by omega)
        (by rw [hscr]; exact dpos_lt vx vy 0 0),
      hlit, hpv0]
    simp only [Option.getD_some, Nat.xor_self]
  refine ⟨_, _, hd1, hd2, ?_, ?_⟩
  · show (drows vx vy (fun _ => 0x80) 1
      ((drows vx vy (fun _ => 0x80) 1 (s.screen, 0)).1, 0)).1[dpos vx vy 0 0]? = some 255
    rw [drows_get_hit _ (by omega) (by omega) (by omega)
        (by rw [drows_len, hscr]; exact dpos_lt vx vy 0 0),
      hfirst, hpv0]
    simp only [Option.getD_some, Nat.zero_xor]
  · show ((s.v_registers.set 15 _).set 15
      (drows vx vy (fun _ => 0x80) 1
        ((drows vx vy (fun _ => 0x80) 1 (s.screen, 0)).1, 0)).2)[15]? = some 0
    rw [List.set_set,
      List.getElem?_set_eq_of_lt _ (by rw [hreg]; omega)]
    rw [drows_flag_keep _ (by omega) ?_]
    intro iy ix hy hx hcol
    obtain ⟨hl, hr⟩ := hcol
    have hy0 : iy = 0 := by omega
    subst hy0
    interval_cases ix
    · rw [hfirst] at hl
      exact absurd hl (by decide)
    · exact absurd hr (by decide)
    · exact absurd hr (by decide)
    · exact absurd hr (by decide)
    · exact absurd hr (by decide)
    · exact absurd hr (by decide)
    · exact absurd hr (by decide)
    · exact absurd hr (by decide)

/-- C6 counterexample: the claim fails when an affected pixel starts lit.
With the one-row sprite 0x80 drawn at (V0, V1) = (0, 0) on the screen of
c6State, whose pixel 0 is already lit, the pixel is lit again (not unlit)
after the second identical draw, and the second draw reports no collision
(VF = 0). -/
theorem c6_draw_twice_counterexample :
    ∃ s1 s2, drawSprite 0 1 1 c6State = some s1 ∧ drawSprite 0 1 1 s1 = some s2 ∧
      s2.screen[dpos 0 0 0 0]? = some 255 ∧ s2.v_registers[15]? = some 0 :=
  c6_counterexample_core
    (by rw [show c6State.v_registers = List.replicate 16 (0:Nat) from rfl,
          List.length_replicate])
    (by decide) (by decide) rfl rfl
    (by rw [show c6State.screen = 255 :: List.replicate 2047 (0:Nat) from rfl,
          List.length_cons, List.length_replicate])
    rfl
    (by rw [show dpos 0 0 0 0 = 0 from rfl,
        show c6State.screen = 255 :: List.replicate 2047 (0:Nat) from rfl,
        List.getElem?_cons_zero])

/-- C6 amended witness: the one-row sprite 0x80 drawn twice at (0, 0) on the
all-unlit screen of c6wState. -/
theorem c6_draw_twice_amended_witness :
    ∃ s1 s2, drawSprite 0 1 1 c6wState = some s1 ∧ drawSprite 0 1 1 s1 = some s2 ∧
      (∀ iy ix, iy < 1 → ix < 8 → pvOf 0x80 ix = 255 →
        s2.screen[dpos 0 0 iy ix]? = some 0) ∧
      s2.v_registers[15]? = some 1 :=
  @c6_draw_twice_amended c6wState 0 1 0 0 1 (fun _ => 0x80)
    (by rw [show c6wState.v_registers = List.replicate 16 (0:Nat) from rfl,
          List.length_replicate])
    (by decide) (by decide) rfl rfl
    (by rw [show c6wState.screen = List.replicate 2048 (0:Nat) from rfl,
          List.length_replicate])
    (by decide)
    (by intro iy hiy
        have h0 : iy = 0 := by omega
        subst h0
        rfl)
    (by intro iy ix hy hx hpv
        rw [show c6wState.screen = List.replicate 2048 (0:Nat) from rfl,
          List.getElem?_replicate, if_pos (dpos_lt 0 0 iy ix)])
    ⟨0, 0, by decide, by decide, by decide⟩
